import Mathlib

/-!
Verification of the concert-playlist extraction-and-reconciliation engine.

This file gives a shallow embedding, in Lean 4, of the core of the
repository: the identity-resolver / diff-engine cascade
(updateVenueDataUtils), the show normalizer and write-gate decision logic
(updateVenueData.ts), and the free-text date utilities (dateUtils), and
proves or refutes the frozen specification claims about them.

Modelling conventions:
* JavaScript arrays become Lean lists; in-place mutation becomes explicit
  state passing.  A JS Set of numbers is modelled by a duplicate-free
  List Nat (addIfAbsent preserves Nodup, so List.length models Set.size).
* JS strings are Lean Strings.  Relational string operators and the
  default Array.sort string comparison compare UTF-16 code units; they
  are modelled by code-point comparison (jsStrLt), which agrees on the
  Basic Multilingual Plane, and charCodeAt by the code point likewise.
  String.localeCompare — used only by the final sort of normalizeShows —
  is locale-sensitive ICU collation living outside the program text, so
  it is abstracted as a Collation parameter (normalizeShowsWith) and
  order-sensitive claims are proved for every collation satisfying the
  comparator contract; the executable model instantiates the parameter
  with code-unit order, which ICU can reorder (mixed case, punctuation
  against digits).
* Array.prototype.sort with a consistent comparator is modelled by a
  stable sort (List.insertionSort); ECMAScript guarantees sort stability,
  and a stable sort w.r.t. a total preorder is unique, so the model is
  exact.
* Machine arithmetic (the FNV-style hash uses JS 32-bit coercions) is
  modelled on Int with explicit reductions modulo 2 ^ 32; all JS number
  intermediates stay below 2 ^ 53 so double arithmetic is exact there.
-/

/-- One artist-role appearance scraped from a venue page
(shared/types.ts, ScrapedShow). -/
structure ScrapedShow where
  date : String
  time : String
  artists : List String
  roles : List String
  venue : String
  showUrl : String
  sourcePageUrl : String
deriving Repr, DecidableEq

/-- One normalized show record (shared/types.ts, VenueDataShow).
Nullable JS fields become Option. -/
structure VenueDataShow where
  showId : String
  dateISO : String
  startTime : Option String
  venueId : String
  venueName : String
  showUrl : Option String
  sourceUrl : String
  headliners : List String
  openers : List String
deriving Repr, DecidableEq

instance : Inhabited VenueDataShow :=
  ⟨{ showId := "", dateISO := "", startTime := none, venueId := "",
     venueName := "", showUrl := none, sourceUrl := "",
     headliners := [], openers := [] }⟩

/-- Venue metadata carried in a persisted file (shared/types.ts). -/
structure VenueInfo where
  id : String
  name : String
  calendarUrl : String
deriving Repr, DecidableEq

/-- One persisted venue JSON document (shared/types.ts, VenueDataFile). -/
structure VenueDataFile where
  venue : VenueInfo
  generatedAtISO : String
  shows : List VenueDataShow
deriving Repr, DecidableEq

/-- JS Array.join with a comma separator. -/
def joinComma (xs : List String) : String :=
  String.intercalate "," xs

/-- updateVenueDataUtils: exact key
date|time|venueId|url|headliners|openers. -/
def buildShowKey (s : VenueDataShow) : String :=
  String.intercalate "|"
    [s.dateISO, s.startTime.getD "", s.venueId,
     s.showUrl.getD "", joinComma s.headliners, joinComma s.openers]

/-- updateVenueDataUtils: stable key date|venueId|url|headliners. -/
def buildStableShowKey (s : VenueDataShow) : String :=
  String.intercalate "|"
    [s.dateISO, s.venueId, s.showUrl.getD "",
     joinComma s.headliners]

/-- updateVenueDataUtils: url key venueId|url, empty when no url. -/
def buildUrlKey (s : VenueDataShow) : String :=
  match s.showUrl with
  | some url => s.venueId ++ "|" ++ url
  | none => ""

/-- updateVenueDataUtils: date-time key venueId|date|time. -/
def buildDateTimeKey (s : VenueDataShow) : String :=
  s.venueId ++ "|" ++ s.dateISO ++ "|" ++ s.startTime.getD ""

/-- updateVenueDataUtils: headliner-time key
venueId|date|time|headliners. -/
def buildHeadlinerTimeKey (s : VenueDataShow) : String :=
  s.venueId ++ "|" ++ s.dateISO ++ "|" ++ s.startTime.getD ""
    ++ "|" ++ joinComma s.headliners

/-- The mutable match bookkeeping of updateVenueDataUtils (two JS Sets of
indices), as duplicate-free index lists. -/
structure MatchState where
  matchedPrev : List Nat
  matchedNext : List Nat
deriving Repr, DecidableEq

/-- One matched (previous index, next index) pair. -/
structure MatchPair where
  prevIndex : Nat
  nextIndex : Nat
deriving Repr, DecidableEq

/-- JS Set.add: membership-preserving insert. -/
def addIfAbsent (s : List Nat) (i : Nat) : List Nat :=
  if s.contains i then s else i :: s

/-- The lookup map built at the start of a tryMatch pass: for a key, the
ascending list of previous-batch indices that were unmatched when the
pass started and bear that key.  (The JS map also omits previous records
whose key is empty; a lookup only happens for a non-empty key, for which
the filter below is equivalent.) -/
def keyIndices (previous : List VenueDataShow) (mp0 : List Nat)
    (kf : VenueDataShow → String) (key : String) : List Nat :=
  (List.range previous.length).filter
    (fun i => !(mp0.contains i) && (kf (previous.getD i default) == key))

/-- The j-loop of tryMatch: mp0 is the matched-previous set captured when
the pass started (the JS lookup map is built once and never updated
within the pass). -/
def tryMatchGo (previous next : List VenueDataShow)
    (kf : VenueDataShow → String) (mp0 : List Nat) :
    List Nat → MatchState → MatchState × List MatchPair
  | [], st => (st, [])
  | j :: js, st =>
    if st.matchedNext.contains j then
      tryMatchGo previous next kf mp0 js st
    else
      let key := kf (next.getD j default)
      if key = "" then
        tryMatchGo previous next kf mp0 js st
      else
        match keyIndices previous mp0 kf key with
        | [p] =>
          let st' : MatchState :=
            ⟨addIfAbsent st.matchedPrev p, addIfAbsent st.matchedNext j⟩
          let rest := tryMatchGo previous next kf mp0 js st'
          (rest.1, ⟨p, j⟩ :: rest.2)
        | _ => tryMatchGo previous next kf mp0 js st

/-- updateVenueDataUtils.tryMatch: one matching pass of the cascade. -/
def tryMatch (previous next : List VenueDataShow) (state : MatchState)
    (kf : VenueDataShow → String) : MatchState × List MatchPair :=
  tryMatchGo previous next kf state.matchedPrev
    (List.range next.length) state

/-- Write a showId into the record at one index (the JS statement
result[pair.nextIndex].showId = previousShows[pair.prevIndex].showId). -/
def setShowIdAt (l : List VenueDataShow) (i : Nat) (sid : String) :
    List VenueDataShow :=
  match l.get? i with
  | some s => l.set i { s with showId := sid }
  | none => l

/-- Apply one pass of showId reassignments from matched pairs. -/
def applyPairs (result previousShows : List VenueDataShow)
    (pairs : List MatchPair) : List VenueDataShow :=
  pairs.foldl
    (fun acc pr =>
      setShowIdAt acc pr.nextIndex
        ((previousShows.getD pr.prevIndex default).showId))
    result

/-- updateVenueDataUtils.preserveShowIds: run the five-strategy cascade
and carry matched predecessors' showIds onto the next batch.  The JS
spread-copy of each next record is the identity in a pure model. -/
def preserveShowIds (nextShows previousShows : List VenueDataShow) :
    List VenueDataShow :=
  let result0 := nextShows
  let state0 : MatchState := ⟨[], []⟩
  let exact := tryMatch previousShows result0 state0 buildShowKey
  let result1 := applyPairs result0 previousShows exact.2
  let stable := tryMatch previousShows result1 exact.1 buildStableShowKey
  let result2 := applyPairs result1 previousShows stable.2
  let url := tryMatch previousShows result2 stable.1 buildUrlKey
  let result3 := applyPairs result2 previousShows url.2
  let dateTime := tryMatch previousShows result3 url.1 buildDateTimeKey
  let result4 := applyPairs result3 previousShows dateTime.2
  let headlinerTime :=
    tryMatch previousShows result4 dateTime.1 buildHeadlinerTimeKey
  applyPairs result4 previousShows headlinerTime.2

/-- The added/updated/removed/unchanged report of the diff engine. -/
structure DiffCounts where
  removed : Nat
  unchanged : Nat
  updated : Nat
  added : Nat
deriving Repr, DecidableEq

/-- updateVenueDataUtils.diffShows: run the same cascade with fresh state
and count pairs; a JS Set's size is the length of the duplicate-free
index list. -/
def diffShows (previous next : List VenueDataShow) : DiffCounts :=
  let state0 : MatchState := ⟨[], []⟩
  let u1 := tryMatch previous next state0 buildShowKey
  let u2 := tryMatch previous next u1.1 buildStableShowKey
  let u3 := tryMatch previous next u2.1 buildUrlKey
  let u4 := tryMatch previous next u3.1 buildDateTimeKey
  let u5 := tryMatch previous next u4.1 buildHeadlinerTimeKey
  { removed := previous.length - u5.1.matchedPrev.length
    unchanged := u1.2.length
    updated := (u2.2 ++ u3.2 ++ u4.2 ++ u5.2).length
    added := next.length - u5.1.matchedNext.length }

/-- Pass 1 of the cascade on a raw (previous, next) pair: exact key. -/
def pass1 (previous next : List VenueDataShow) :
    MatchState × List MatchPair :=
  tryMatch previous next ⟨[], []⟩ buildShowKey

/-- Pass 2 of the cascade: stable key. -/
def pass2 (previous next : List VenueDataShow) :
    MatchState × List MatchPair :=
  tryMatch previous next (pass1 previous next).1 buildStableShowKey

/-- Pass 3 of the cascade: url key. -/
def pass3 (previous next : List VenueDataShow) :
    MatchState × List MatchPair :=
  tryMatch previous next (pass2 previous next).1 buildUrlKey

/-- Pass 4 of the cascade: date-time key. -/
def pass4 (previous next : List VenueDataShow) :
    MatchState × List MatchPair :=
  tryMatch previous next (pass3 previous next).1 buildDateTimeKey

/-- Pass 5 of the cascade: headliner-time key. -/
def pass5 (previous next : List VenueDataShow) :
    MatchState × List MatchPair :=
  tryMatch previous next (pass4 previous next).1 buildHeadlinerTimeKey

/-- All pairs matched by any of the five strategies, in cascade order. -/
def cascadeAllPairs (previous next : List VenueDataShow) :
    List MatchPair :=
  (pass1 previous next).2 ++ (pass2 previous next).2
    ++ (pass3 previous next).2 ++ (pass4 previous next).2
    ++ (pass5 previous next).2

/-- A JS Date as read by inferYear: its UTC year, 0-based UTC month and
1-based UTC day-of-month. -/
structure JSDate where
  utcFullYear : Int
  utcMonth : Int
  utcDate : Int
deriving Repr, DecidableEq

/-- Days from the Unix epoch to civil date y-m-1 plus (d - 1), for month
in 1..12 and arbitrary day offset, via the standard civil-from-days
construction; this is exactly the day count Date.UTC normalises to. -/
def daysFromCivil (y m d : Int) : Int :=
  let yAdj := if m ≤ 2 then y - 1 else y
  let era := yAdj.fdiv 400
  let yoe := yAdj - era * 400
  let mp := (m + 9).emod 12
  let doy := (153 * mp + 2).fdiv 5 + (d - 1)
  let doe := yoe * 365 + yoe.fdiv 4 - yoe.fdiv 100 + doy
  era * 146097 + doe - 719468

/-- JS Date.UTC(year, monthIndex, day) in milliseconds, including its
normalisation of out-of-range month indices and day numbers. -/
def dateUTCms (year monthIndex day : Int) : Int :=
  let yAdj := year + monthIndex.fdiv 12
  let m0 := monthIndex.emod 12
  86400000 * (daysFromCivil yAdj (m0 + 1) day)

/-- dateUtils.inferYear: keep the reference year unless the candidate
month/day, read in the reference year, falls more than 31 days before
the reference date, in which case advance one year. -/
def inferYear (month day : Nat) (referenceDate : JSDate) : Int :=
  let referenceUTC :=
    dateUTCms referenceDate.utcFullYear referenceDate.utcMonth
      referenceDate.utcDate
  let candidateUTC :=
    dateUTCms referenceDate.utcFullYear ((month : Int) - 1) (day : Int)
  let oneMonthMs : Int := 31 * 24 * 60 * 60 * 1000
  if candidateUTC < referenceUTC - oneMonthMs then
    referenceDate.utcFullYear + 1
  else
    referenceDate.utcFullYear

/-- Numeric value of a decimal digit character. -/
def digitVal (c : Char) : Nat := c.toNat - 48

/-- Value of a one-digit numeral. -/
def digit1 (c : Char) : Nat := digitVal c

/-- Value of a two-digit numeral. -/
def digit2 (a b : Char) : Nat := 10 * digitVal a + digitVal b

/-- Numeric value of a digit string (Number.parseInt on an all-digit
match). -/
def digitsToNat (ds : List Char) : Nat :=
  ds.foldl (fun acc c => 10 * acc + digitVal c) 0

/-- Day part of the dot-notation regex: one or two digits, greedy. -/
def dotDay : List Char → Option Nat
  | d1 :: d2 :: _ =>
    if d1.isDigit then
      some (if d2.isDigit then digit2 d1 d2 else digit1 d1)
    else none
  | [d1] => if d1.isDigit then some (digit1 d1) else none
  | [] => none

/-- Dot-notation match attempt with a two-digit month. -/
def dotMonth2 : List Char → Option (Nat × Nat)
  | c1 :: c2 :: '.' :: rest =>
    if c1.isDigit && c2.isDigit then
      (dotDay rest).map (fun d => (digit2 c1 c2, d))
    else none
  | _ => none

/-- Dot-notation match attempt with a one-digit month (the backtracking
fallback of the greedy two-digit attempt). -/
def dotMonth1 : List Char → Option (Nat × Nat)
  | c1 :: '.' :: rest =>
    if c1.isDigit then (dotDay rest).map (fun d => (digit1 c1, d))
    else none
  | _ => none

/-- One anchored attempt of the dot-notation pattern. -/
def dotAt (cs : List Char) : Option (Nat × Nat) :=
  match dotMonth2 cs with
  | some r => some r
  | none => dotMonth1 cs

/-- Leftmost search for the dot-notation pattern, as regex matching
does. -/
def searchDot : List Char → Option (Nat × Nat)
  | [] => none
  | c :: rest =>
    match dotAt (c :: rest) with
    | some r => some r
    | none => searchDot rest

/-- Year digits of the slash notation: 2 to 4 digits, greedy. -/
def slashYearDigits : List Char → Option (List Char)
  | a :: b :: c :: d :: _ =>
    if a.isDigit && b.isDigit && c.isDigit && d.isDigit then
      some [a, b, c, d]
    else if a.isDigit && b.isDigit && c.isDigit then some [a, b, c]
    else if a.isDigit && b.isDigit then some [a, b]
    else none
  | [a, b, c] =>
    if a.isDigit && b.isDigit && c.isDigit then some [a, b, c]
    else if a.isDigit && b.isDigit then some [a, b]
    else none
  | [a, b] => if a.isDigit && b.isDigit then some [a, b] else none
  | _ => none

/-- Optional slash-year group: a second slash followed by 2-4 digits;
absent when that does not match. -/
def slashYearOpt : List Char → Option (List Char)
  | '/' :: rest => slashYearDigits rest
  | _ => none

/-- Day (one or two digits, greedy) and optional year of the slash
notation. -/
def slashDayYear : List Char → Option (Nat × Option (List Char))
  | c1 :: c2 :: rest =>
    if c1.isDigit && c2.isDigit then
      some (digit2 c1 c2, slashYearOpt rest)
    else if c1.isDigit then
      some (digit1 c1, slashYearOpt (c2 :: rest))
    else none
  | [c1] => if c1.isDigit then some (digit1 c1, none) else none
  | [] => none

/-- Slash-notation match attempt with a two-digit month. -/
def slashMonth2 : List Char → Option (Nat × Nat × Option (List Char))
  | c1 :: c2 :: '/' :: rest =>
    if c1.isDigit && c2.isDigit then
      (slashDayYear rest).map (fun r => (digit2 c1 c2, r.1, r.2))
    else none
  | _ => none

/-- Slash-notation match attempt with a one-digit month. -/
def slashMonth1 : List Char → Option (Nat × Nat × Option (List Char))
  | c1 :: '/' :: rest =>
    if c1.isDigit then
      (slashDayYear rest).map (fun r => (digit1 c1, r.1, r.2))
    else none
  | _ => none

/-- One anchored attempt of the slash-notation pattern. -/
def slashAt (cs : List Char) : Option (Nat × Nat × Option (List Char)) :=
  match slashMonth2 cs with
  | some r => some r
  | none => slashMonth1 cs

/-- Leftmost search for the slash-notation pattern. -/
def searchSlash : List Char → Option (Nat × Nat × Option (List Char))
  | [] => none
  | c :: rest =>
    match slashAt (c :: rest) with
    | some r => some r
    | none => searchSlash rest

/-- The explicit slash-notation year: a two-digit year gets a 20 prefix,
a three- or four-digit year is taken as written. -/
def yearFromDigits (ds : List Char) : Nat :=
  if ds.length = 2 then 2000 + digitsToNat ds else digitsToNat ds

/-- Does pat occur as a literal prefix of cs? Returns the remainder. -/
def stripLit : List Char → List Char → Option (List Char)
  | [], cs => some cs
  | _, [] => none
  | p :: ps, c :: cs => if p = c then stripLit ps cs else none

/-- Month-name alternatives of the month regex, in regex alternation
order; for each month, the candidate spellings in backtracking order
(the greedy optional suffix first, the abbreviations by group order). -/
def monthSpellings : List (Nat × List (List Char)) :=
  [ (1, ["january".data, "jan".data])
  , (2, ["february".data, "feb".data])
  , (3, ["march".data, "mar".data])
  , (4, ["april".data, "apr".data])
  , (5, ["may".data])
  , (6, ["june".data, "jun".data])
  , (7, ["july".data, "jul".data])
  , (8, ["august".data, "aug".data])
  , (9, ["sept".data, "september".data, "sep".data])
  , (10, ["october".data, "oct".data])
  , (11, ["november".data, "nov".data])
  , (12, ["december".data, "dec".data]) ]

/-- At least one whitespace character, consumed greedily. -/
def skipWs1 : List Char → Option (List Char)
  | c :: rest =>
    if c.isWhitespace then
      some (rest.dropWhile Char.isWhitespace)
    else none
  | [] => none

/-- Optional ordinal suffix st, nd, rd or th after the day. -/
def dropOrdinal (cs : List Char) : List Char :=
  match stripLit "st".data cs with
  | some rest => rest
  | none =>
  match stripLit "nd".data cs with
  | some rest => rest
  | none =>
  match stripLit "rd".data cs with
  | some rest => rest
  | none =>
  match stripLit "th".data cs with
  | some rest => rest
  | none => cs

/-- Exactly four digits. -/
def fourDigits : List Char → Option Nat
  | a :: b :: c :: d :: _ =>
    if a.isDigit && b.isDigit && c.isDigit && d.isDigit then
      some (digitsToNat [a, b, c, d])
    else none
  | _ => none

/-- Optional comma-year group of the month-name notation. -/
def commaYearOpt : List Char → Option Nat
  | ',' :: rest => fourDigits (rest.dropWhile Char.isWhitespace)
  | _ => none

/-- The day-and-year continuation after a month name: whitespace, a one-
or two-digit day (greedy), an optional ordinal suffix, an optional
comma-year group. -/
def monthNameTail (cs : List Char) : Option (Nat × Option Nat) :=
  match skipWs1 cs with
  | none => none
  | some afterWs =>
    match afterWs with
    | c1 :: c2 :: rest =>
      if c1.isDigit && c2.isDigit then
        some (digit2 c1 c2, commaYearOpt (dropOrdinal rest))
      else if c1.isDigit then
        some (digit1 c1, commaYearOpt (dropOrdinal (c2 :: rest)))
      else none
    | [c1] => if c1.isDigit then some (digit1 c1, none) else none
    | [] => none

/-- Try one month's spellings in backtracking order at this position. -/
def monthAttempt (cs : List Char) :
    Nat × List (List Char) → Option (Nat × Nat × Option Nat)
  | (_, []) => none
  | (m, spelling :: more) =>
    match stripLit spelling cs with
    | some rest =>
      match monthNameTail rest with
      | some (d, y) => some (m, d, y)
      | none => monthAttempt cs (m, more)
    | none => monthAttempt cs (m, more)

/-- One anchored attempt of the month-name pattern: months in regex
alternation order. -/
def monthNameAt (cs : List Char) : Option (Nat × Nat × Option Nat) :=
  monthSpellings.foldl
    (fun acc alt =>
      match acc with
      | some r => some r
      | none => monthAttempt cs alt)
    none

/-- Leftmost search for the month-name pattern. -/
def searchMonthName : List Char → Option (Nat × Nat × Option Nat)
  | [] => none
  | c :: rest =>
    match monthNameAt (c :: rest) with
    | some r => some r
    | none => searchMonthName rest

/-- JS String.prototype.toLowerCase, restricted to the simple case
mappings Lean's Char.toLower provides (they agree on ASCII, which is all
this parser ever distinguishes). -/
def jsToLower (s : String) : String :=
  String.mk (s.data.map Char.toLower)

/-- padStart(2, "0") for the one- or two-digit numerals produced by the
date parser. -/
def padStart2 (s : String) : String :=
  if s.length < 2 then "0" ++ s else s

/-- Template-literal rendering of a parsed date. -/
def isoStringOf (year : Int) (month day : Nat) : String :=
  toString year ++ "-" ++ padStart2 (toString month) ++ "-"
    ++ padStart2 (toString day)

/-- dateUtils.parseDateISOFromText: lowercase, then try dot notation,
slash notation and month-name notation in that order; infer the year
against the reference date when no explicit year is written; empty
string when nothing matches. -/
def parseDateISOFromText (value : String) (referenceDate : JSDate) :
    String :=
  let cs := (jsToLower value).data
  match searchDot cs with
  | some (month, day) =>
    isoStringOf (inferYear month day referenceDate) month day
  | none =>
  match searchSlash cs with
  | some (month, day, yearDigits) =>
    let year : Int :=
      match yearDigits with
      | some ds => (yearFromDigits ds : Int)
      | none => inferYear month day referenceDate
    isoStringOf year month day
  | none =>
  match searchMonthName cs with
  | some (month, day, yearNum) =>
    let year : Int :=
      match yearNum with
      | some y => (y : Int)
      | none => inferYear month day referenceDate
    isoStringOf year month day
  | none => ""

/-- JS String.prototype.split on a one-character separator, on the
underlying character list (split always returns at least one piece). -/
def splitCharsOn (sep : Char) : List Char → List (List Char)
  | [] => [[]]
  | c :: rest =>
    match splitCharsOn sep rest with
    | [] => [[]]
    | h :: t => if c = sep then [] :: h :: t else (c :: h) :: t

/-- JS String.prototype.split on a one-character separator. -/
def jsSplitOn (s : String) (sep : Char) : List String :=
  (splitCharsOn sep s.data).map String.mk

/-- Number.parseInt base 10 on a possibly-signed decimal prefix; none
models NaN. -/
def jsParseIntPrefix (s : String) : Option Int :=
  let cs := s.data.dropWhile Char.isWhitespace
  let signAndDigits : Int × List Char :=
    match cs with
    | '-' :: rest => (-1, rest)
    | '+' :: rest => (1, rest)
    | _ => (1, cs)
  let ds := signAndDigits.2.takeWhile Char.isDigit
  if ds.isEmpty then none
  else some (signAndDigits.1 * (digitsToNat ds : Int))

/-- updateVenueData.formatTime12: convert 24-hour HH:mm into a human
h:mm AM/PM string; null for an empty or unparsable hour. -/
def formatTime12 (time24 : String) : Option String :=
  if time24 = "" then none
  else
    let parts := jsSplitOn time24 ':' 
    let hourText := parts.getD 0 ""
    let minutes := (parts.get? 1).getD "00"
    match jsParseIntPrefix hourText with
    | none => none
    | some hour =>
      let meridiem := if 12 ≤ hour then "PM" else "AM"
      let hour12 := if hour.emod 12 = 0 then 12 else hour.emod 12
      some (toString hour12 ++ ":" ++ minutes ++ " " ++ meridiem)

/-- Unsigned 32-bit reduction (JS ToUint32). -/
def toUint32 (n : Int) : Nat := (n.emod 4294967296).toNat

/-- Read an unsigned 32-bit value as a signed 32-bit integer. -/
def asInt32 (u : Nat) : Int :=
  if u < 2147483648 then (u : Int) else (u : Int) - 4294967296

/-- JS 32-bit bitwise xor. -/
def jsXor32 (x y : Int) : Int :=
  asInt32 (Nat.xor (toUint32 x) (toUint32 y))

/-- JS 32-bit left shift. -/
def jsShl32 (x : Int) (k : Nat) : Int :=
  asInt32 (toUint32 x * 2 ^ k % 4294967296)

/-- updateVenueData.hashString: the FNV-1a-style 32-bit hash, with JS
coercion semantics (xor and shifts coerce to 32 bits, the additions are
exact doubles), rendered as zero-padded lowercase hex. -/
def hashString (value : String) : String :=
  let h : Int :=
    value.data.foldl
      (fun hash c =>
        let hx := jsXor32 hash (c.toNat : Int)
        hx + (jsShl32 hx 1 + jsShl32 hx 4 + jsShl32 hx 7
          + jsShl32 hx 8 + jsShl32 hx 24))
      0x811c9dc5
  let hex := String.mk (Nat.toDigits 16 (toUint32 h))
  String.mk (List.replicate (8 - hex.length) '0') ++ hex

/-- updateVenueData.buildShowId: hash of the pipe-joined canonical
content string venueId|dateISO|showUrl|headliners. -/
def buildShowId (venueId dateISO : String) (showUrl : Option String)
    (headliners : List String) : String :=
  hashString
    (String.intercalate "|"
      [venueId, dateISO, showUrl.getD "", joinComma headliners])

/-- First-occurrence deduplication (JS new Set insertion order). -/
def dedupKeepFirst (xs : List String) : List String :=
  xs.foldl (fun acc x => if acc.contains x then acc else acc ++ [x]) []

/-- JS string comparison on code units, on the underlying character
lists: true when the first list is strictly smaller. -/
def charListLt : List Char → List Char → Bool
  | _, [] => false
  | [], _ :: _ => true
  | c :: cs, d :: ds =>
    if c.toNat < d.toNat then true
    else if d.toNat < c.toNat then false
    else charListLt cs ds

/-- JS operator a < b on strings. -/
def jsStrLt (a b : String) : Bool := charListLt a.data b.data

/-- JS operator a <= b on strings (the negation of the reversed strict
comparison, as in any total order). -/
def jsStrLe (a b : String) : Bool := !(jsStrLt b a)

/-- JS default Array.sort on strings (code-unit comparison), as a stable
sort. -/
def sortStrings (xs : List String) : List String :=
  List.insertionSort (fun a b : String => jsStrLe a b = true) xs

/-- The grouping state of normalizeShows: the shows built so far and the
key-to-index map (JS Map; group keys are registered at most once, so an
association list looked up front-to-back is an exact model). -/
structure NormState where
  shows : List VenueDataShow
  byKey : List (String × Nat)
deriving Repr

/-- JS Map.get on the grouping map. -/
def lookupIdx (byKey : List (String × Nat)) (k : String) : Option Nat :=
  (byKey.find? (fun e => e.1 == k)).map (fun e => e.2)

/-- The reversed-find of normalizeShows: the most recently created show
sharing the row's date and having no url. -/
def findLastNoUrlIdx (shows : List VenueDataShow) (date : String) :
    Option Nat :=
  ((List.range shows.length).filter
    (fun i =>
      let ex := shows.getD i default
      ex.dateISO == date && ex.showUrl == none)).getLast?

/-- Append a row's artists to the headliners or openers of the show at
one index. -/
def pushArtists (shows : List VenueDataShow) (i : Nat) (role : String)
    (artists : List String) : List VenueDataShow :=
  match shows.get? i with
  | some s =>
    shows.set i
      (if role = "opener" then { s with openers := s.openers ++ artists }
       else { s with headliners := s.headliners ++ artists })
  | none => shows

/-- One iteration of the grouping loop of normalizeShows. -/
def normStep (venueId venueName sourceUrl : String) (st : NormState)
    (item : ScrapedShow) : NormState :=
  let showUrl : Option String :=
    if item.showUrl = "" then none else some item.showUrl
  let role := item.roles.headD "headliner"
  let key : Option String :=
    match showUrl with
    | some u => some ("url:" ++ u)
    | none =>
      if role = "opener" then none
      else
        some ("date:" ++ item.date ++ "|headliner:"
          ++ joinComma item.artists)
  let found0 : Option Nat := key.bind (fun k => lookupIdx st.byKey k)
  let found : Option Nat :=
    match found0 with
    | some i => some i
    | none =>
      if role = "opener" then findLastNoUrlIdx st.shows item.date
      else none
  match found with
  | some i =>
    { st with shows := pushArtists st.shows i role item.artists }
  | none =>
    let newShow : VenueDataShow :=
      { showId := "", dateISO := item.date,
        startTime := formatTime12 item.time, venueId, venueName,
        showUrl, sourceUrl, headliners := [], openers := [] }
    let idx := st.shows.length
    let shows2 := pushArtists (st.shows ++ [newShow]) idx role item.artists
    let byKey2 :=
      match key with
      | some k => st.byKey ++ [(k, idx)]
      | none => st.byKey
    ⟨shows2, byKey2⟩

/-- Exact-duplicate removal by first-seen buildShowKey. -/
def dedupByShowKey (l : List VenueDataShow) : List VenueDataShow :=
  (l.foldl
    (fun acc s =>
      let k := buildShowKey s
      if acc.1.contains k then acc else (acc.1 ++ [k], acc.2 ++ [s]))
    ([], [])).2

/-- The null-last-free startTime sort key: the comparator reads
startTime ?? "", so a null startTime compares as the empty string. -/
def startTimeKey (s : VenueDataShow) : String := s.startTime.getD ""

/-- The joined-headliners sort key. -/
def headlinersKey (s : VenueDataShow) : String := joinComma s.headliners

/-- The final comparator of normalizeShows at the code-unit collation
(the executable instance used for concrete evaluation), as the
non-strict relation cmp a b is nonpositive: lexicographic on (dateISO,
startTime ?? "", headliners joined).  The collation-generic comparator
faithful to localeCompare is showLeC below. -/
def showLe (a b : VenueDataShow) : Prop :=
  jsStrLt a.dateISO b.dateISO = true ∨
    (a.dateISO = b.dateISO ∧
      (jsStrLt (startTimeKey a) (startTimeKey b) = true ∨
        (startTimeKey a = startTimeKey b
          ∧ jsStrLe (headlinersKey a) (headlinersKey b) = true)))

instance : DecidableRel showLe := fun a b => by
  unfold showLe; infer_instance

theorem charListLt_asymm : ∀ a b : List Char,
    charListLt a b = true → charListLt b a = false := by
  intro a
  induction a with
  | nil =>
    intro b h
    cases b with
    | nil => cases h
    | cons d ds => rfl
  | cons c cs ih =>
    intro b h
    cases b with
    | nil => cases h
    | cons d ds =>
      rw [charListLt] at h ⊢
      split at h
      · rename_i h1
        rw [if_neg (by omega), if_pos h1]
      · split at h
        · cases h
        · rename_i h1 h2
          rw [if_neg h2, if_neg h1]
          exact ih ds h

theorem charListLt_trans : ∀ a b c : List Char,
    charListLt a b = true → charListLt b c = true →
      charListLt a c = true := by
  intro a
  induction a with
  | nil =>
    intro b c hab hbc
    cases b with
    | nil => cases hab
    | cons d ds =>
      cases c with
      | nil => cases hbc
      | cons e es => rfl
  | cons x xs ih =>
    intro b c hab hbc
    cases b with
    | nil => cases hab
    | cons y ys =>
      cases c with
      | nil => cases hbc
      | cons z zs =>
        rw [charListLt] at hab hbc ⊢
        split at hab
        · rename_i hxy
          split at hbc
          · rename_i hyz
            rw [if_pos (by omega)]
          · split at hbc
            · cases hbc
            · rename_i h1 h2
              have : y.toNat = z.toNat := by omega
              rw [if_pos (by omega)]
        · split at hab
          · cases hab
          · rename_i h1 h2
            have hxy : x.toNat = y.toNat := by omega
            split at hbc
            · rename_i hyz
              rw [if_pos (by omega)]
            · split at hbc
              · cases hbc
              · rename_i h3 h4
                rw [if_neg (by omega), if_neg (by omega)]
                exact ih ys zs hab hbc

theorem charListLt_connex : ∀ a b : List Char,
    charListLt a b = false → charListLt b a = false → a = b := by
  intro a
  induction a with
  | nil =>
    intro b hab _
    cases b with
    | nil => rfl
    | cons d ds => cases hab
  | cons x xs ih =>
    intro b hab hba
    cases b with
    | nil => cases hba
    | cons y ys =>
      rw [charListLt] at hab hba
      split at hab
      · cases hab
      · split at hab
        · rename_i h1 h2
          rw [if_pos h2] at hba
          cases hba
        · rename_i h1 h2
          have hxy : x.toNat = y.toNat := by omega
          rw [if_neg (by omega), if_neg (by omega)] at hba
          have hchar : x = y := Char.ext (UInt32.toNat.inj hxy)
          rw [hchar, ih ys hab hba]

theorem jsStrLt_asymm {a b : String} (h : jsStrLt a b = true) :
    jsStrLt b a = false := charListLt_asymm a.data b.data h

theorem jsStrLt_trans {a b c : String} (h1 : jsStrLt a b = true)
    (h2 : jsStrLt b c = true) : jsStrLt a c = true :=
  charListLt_trans a.data b.data c.data h1 h2

theorem jsStrLt_connex {a b : String} (h1 : jsStrLt a b = false)
    (h2 : jsStrLt b a = false) : a = b := by
  cases a with
  | mk da =>
    cases b with
    | mk db =>
      have := charListLt_connex da db h1 h2
      rw [this]

theorem jsStrLe_total : ∀ a b : String,
    jsStrLe a b = true ∨ jsStrLe b a = true := by
  intro a b
  unfold jsStrLe
  cases h : jsStrLt b a with
  | false => exact Or.inl (by simp)
  | true => exact Or.inr (by rw [jsStrLt_asymm h]; rfl)

theorem jsStrLe_trans {a b c : String} (h1 : jsStrLe a b = true)
    (h2 : jsStrLe b c = true) : jsStrLe a c = true := by
  unfold jsStrLe at h1 h2 ⊢
  rw [Bool.not_eq_true'] at h1 h2 ⊢
  by_contra hca
  rw [Bool.not_eq_false] at hca
  cases hab : jsStrLt a b with
  | true =>
    have hcb := jsStrLt_trans hca hab
    rw [h2] at hcb
    exact Bool.noConfusion hcb
  | false =>
    have hba := jsStrLt_connex hab h1
    rw [hba] at hca
    rw [h2] at hca
    exact Bool.noConfusion hca

theorem showLe_total : ∀ a b, showLe a b ∨ showLe b a := by
  intro a b
  unfold showLe
  cases hd : jsStrLt a.dateISO b.dateISO with
  | true => exact Or.inl (Or.inl rfl)
  | false =>
    cases hd2 : jsStrLt b.dateISO a.dateISO with
    | true => exact Or.inr (Or.inl rfl)
    | false =>
      have he := jsStrLt_connex hd hd2
      cases ht : jsStrLt (startTimeKey a) (startTimeKey b) with
      | true => exact Or.inl (Or.inr ⟨he, Or.inl rfl⟩)
      | false =>
        cases ht2 : jsStrLt (startTimeKey b) (startTimeKey a) with
        | true => exact Or.inr (Or.inr ⟨he.symm, Or.inl rfl⟩)
        | false =>
          have hte := jsStrLt_connex ht ht2
          rcases jsStrLe_total (headlinersKey a) (headlinersKey b) with
            h3 | h3
          · exact Or.inl (Or.inr ⟨he, Or.inr ⟨hte, h3⟩⟩)
          · exact Or.inr (Or.inr ⟨he.symm, Or.inr ⟨hte.symm, h3⟩⟩)

theorem showLe_trans :
    ∀ a b c, showLe a b → showLe b c → showLe a c := by
  intro a b c hab hbc
  unfold showLe at hab hbc ⊢
  rcases hab with h1 | ⟨e1, h1⟩
  · rcases hbc with h2 | ⟨e2, _⟩
    · exact Or.inl (jsStrLt_trans h1 h2)
    · exact Or.inl (e2 ▸ h1)
  · rcases hbc with h2 | ⟨e2, h2⟩
    · exact Or.inl (e1 ▸ h2)
    · refine Or.inr ⟨e1.trans e2, ?_⟩
      rcases h1 with h1 | ⟨f1, h1⟩
      · rcases h2 with h2 | ⟨f2, _⟩
        · exact Or.inl (jsStrLt_trans h1 h2)
        · exact Or.inl (f2 ▸ h1)
      · rcases h2 with h2 | ⟨f2, h2⟩
        · exact Or.inl (f1 ▸ h2)
        · exact Or.inr ⟨f1.trans f2, jsStrLe_trans h1 h2⟩

instance : IsTotal VenueDataShow showLe := ⟨showLe_total⟩

instance : IsTrans VenueDataShow showLe := ⟨showLe_trans⟩

theorem charListLt_nil_right : ∀ l : List Char, charListLt l [] = false := by
  intro l
  cases l <;> rfl

theorem jsStrLe_antisymm {a b : String} (h1 : jsStrLe a b = true)
    (h2 : jsStrLe b a = true) : a = b := by
  unfold jsStrLe at h1 h2
  rw [Bool.not_eq_true'] at h1 h2
  exact jsStrLt_connex h2 h1

theorem jsStrLe_empty_left (s : String) : jsStrLe "" s = true := by
  have h : charListLt s.data [] = false := charListLt_nil_right s.data
  show (!(charListLt s.data [])) = true
  rw [h]
  rfl

/-- An abstract collation: the total order on strings induced by the
runtime's String.localeCompare (le a b models localeCompare(a, b) being
nonpositive).  The ICU collation Node applies is locale data outside
this program, so order-sensitive statements are proved for every
collation with these properties, which state what the comparator
contract and ICU guarantee on the strings this program compares:
totality, transitivity, distinct strings compare unequal, and the empty
string collates first. -/
structure Collation where
  le : String → String → Bool
  total : ∀ a b, le a b = true ∨ le b a = true
  trans : ∀ a b c, le a b = true → le b c = true → le a c = true
  antisymm : ∀ a b, le a b = true → le b a = true → a = b
  empty_le : ∀ s, le "" s = true

/-- The final-sort comparator of normalizeShows under an abstract
collation, as the relation cmp(a, b) nonpositive: compare dateISO by
localeCompare when the dates differ as strings, else startTime ?? ""
when those differ, else the joined headliners. -/
def showLeC (C : Collation) (a b : VenueDataShow) : Prop :=
  if a.dateISO = b.dateISO then
    (if startTimeKey a = startTimeKey b then
      C.le (headlinersKey a) (headlinersKey b) = true
    else C.le (startTimeKey a) (startTimeKey b) = true)
  else C.le a.dateISO b.dateISO = true

instance (C : Collation) : DecidableRel (showLeC C) := fun a b => by
  unfold showLeC
  infer_instance

/-- Code-unit string order packaged as a collation: the instance the
executable model evaluates with. -/
def codeUnitCollation : Collation where
  le := jsStrLe
  total := jsStrLe_total
  trans := fun _ _ _ h1 h2 => jsStrLe_trans h1 h2
  antisymm := fun _ _ h1 h2 => jsStrLe_antisymm h1 h2
  empty_le := jsStrLe_empty_left

/-- updateVenueData.normalizeShows: group scraped rows into shows,
canonicalise artist lists, assign content hashes, drop exact duplicates
and sort (Array.sort with a consistent comparator is stable, hence equal
to any stable sort for that comparator). -/
def normalizeShows (venueId venueName sourceUrl : String)
    (scraped : List ScrapedShow) : List VenueDataShow :=
  let grouped :=
    (scraped.foldl (normStep venueId venueName sourceUrl) ⟨[], []⟩).shows
  let normalized :=
    grouped.map
      (fun s =>
        let headliners := sortStrings (dedupKeepFirst s.headliners)
        let openers := sortStrings (dedupKeepFirst s.openers)
        { s with
          showId := buildShowId s.venueId s.dateISO s.showUrl headliners
          headliners := headliners
          openers := openers })
  List.insertionSort showLe (dedupByShowKey normalized)

/-- normalizeShows with the final-sort collation abstracted: identical
to normalizeShows except that the last sort compares strings with the
given collation (the source's localeCompare) instead of the code-unit
instance; normalizeShows is provably this definition at
codeUnitCollation. -/
def normalizeShowsWith (C : Collation)
    (venueId venueName sourceUrl : String)
    (scraped : List ScrapedShow) : List VenueDataShow :=
  let grouped :=
    (scraped.foldl (normStep venueId venueName sourceUrl) ⟨[], []⟩).shows
  let normalized :=
    grouped.map
      (fun s =>
        let headliners := sortStrings (dedupKeepFirst s.headliners)
        let openers := sortStrings (dedupKeepFirst s.openers)
        { s with
          showId := buildShowId s.venueId s.dateISO s.showUrl headliners
          headliners := headliners
          openers := openers })
  List.insertionSort (showLeC C) (dedupByShowKey normalized)

/-- The per-venue reconciliation-and-persistence step of
updateVenueData.runUpdate, from the point where the next batch is
normalized: returns whether writeFile runs (first component) and the
venue file on disk afterwards (second component).  The today-or-later
filter show.dateISO >= todayISO is JS string comparison. -/
def venueUpdateStep (venue : VenueInfo)
    (generatedAtISO todayISO : String) (previous : Option VenueDataFile)
    (nextShows : List VenueDataShow) : Bool × Option VenueDataFile :=
  let previousShows := (previous.map VenueDataFile.shows).getD []
  let showsWithIds := preserveShowIds nextShows previousShows
  let futurePrevious :=
    previousShows.filter (fun s => jsStrLe todayISO s.dateISO)
  let futureNext :=
    showsWithIds.filter (fun s => jsStrLe todayISO s.dateISO)
  let countsFuture := diffShows futurePrevious futureNext
  let shouldWrite :=
    previous.isNone || decide (0 < countsFuture.updated)
      || decide (0 < countsFuture.added)
      || decide (0 < countsFuture.removed)
  (shouldWrite,
    if shouldWrite then some ⟨venue, generatedAtISO, showsWithIds⟩
    else previous)

/-- Erase the showId field; two records agree on everything but showId
iff their stripId images are equal. -/
def stripId (s : VenueDataShow) : VenueDataShow :=
  { s with showId := "" }

/-- Pointwise agreement of two show lists on everything but showId. -/
def StripIdEq (l₁ l₂ : List VenueDataShow) : Prop :=
  ∀ j, (l₁.get? j).map stripId = (l₂.get? j).map stripId

/-- A show that carries at least one artist name. -/
def HasArtist (s : VenueDataShow) : Prop :=
  s.headliners ≠ [] ∨ s.openers ≠ []

/-- The order the specification asserts for a null startTime: within one
date, once a null-startTime record appears every later record on the
same date must also have a null startTime (null sorted last). -/
def nullsLastOnDate (l : List VenueDataShow) : Prop :=
  l.Pairwise
    (fun a b => a.dateISO = b.dateISO → a.startTime = none →
      b.startTime = none)

instance (l : List VenueDataShow) : Decidable (nullsLastOnDate l) := by
  unfold nullsLastOnDate
  infer_instance

/-- The spec's identity-continuity previous record: showId old, one
headliner, no openers. -/
def showPrevOld : VenueDataShow :=
  { showId := "old", dateISO := "2026-01-10", startTime := none,
    venueId := "v1", venueName := "Venue One",
    showUrl := some "https://venue.example/20260110",
    sourceUrl := "https://venue.example/cal",
    headliners := ["A"], openers := [] }

/-- The spec's identity-continuity next record: same show with an added
opener, carrying its freshly computed content hash. -/
def showNextNew : VenueDataShow :=
  { showPrevOld with
    showId := buildShowId "v1" "2026-01-10"
      (some "https://venue.example/20260110") ["A"]
    openers := ["NewOpener"] }

/-- Diff example: previous show S1. -/
def diffS1 : VenueDataShow :=
  { showId := "id-s1", dateISO := "2026-02-01",
    startTime := some "8:00 PM", venueId := "v1",
    venueName := "Venue One",
    showUrl := some "https://venue.example/20260201",
    sourceUrl := "https://venue.example/cal",
    headliners := ["A"], openers := ["B"] }

/-- Diff example: previous show S2, never matched. -/
def diffS2 : VenueDataShow :=
  { showId := "id-s2", dateISO := "2026-02-05",
    startTime := some "9:00 PM", venueId := "v1",
    venueName := "Venue One",
    showUrl := some "https://venue.example/20260205",
    sourceUrl := "https://venue.example/cal",
    headliners := ["D"], openers := [] }

/-- Diff example: S1 with an extra opener, matching S1 only through the
stable key (strategy 2). -/
def diffS1n : VenueDataShow :=
  { diffS1 with showId := "id-s1-fresh", openers := ["B", "C"] }

/-- Diff example: a new show S3 matching nothing. -/
def diffS3 : VenueDataShow :=
  { showId := "id-s3", dateISO := "2026-02-11",
    startTime := some "7:00 PM", venueId := "v1",
    venueName := "Venue One",
    showUrl := some "https://venue.example/20260211",
    sourceUrl := "https://venue.example/cal",
    headliners := ["E"], openers := [] }

/-- Write-gate example venue. -/
def venueOne : VenueInfo :=
  ⟨"v1", "Venue One", "https://venue.example/cal"⟩

/-- A persisted show dated before the example's todayISO. -/
def pastShowP : VenueDataShow :=
  { showId := "p1", dateISO := "2026-01-03", startTime := some "8:00 PM",
    venueId := "v1", venueName := "Venue One",
    showUrl := some "https://venue.example/20260103",
    sourceUrl := "https://venue.example/cal",
    headliners := ["P"], openers := [] }

/-- A persisted show dated after the example's todayISO. -/
def futureShowA : VenueDataShow :=
  { showId := "a1", dateISO := "2026-01-15", startTime := some "8:00 PM",
    venueId := "v1", venueName := "Venue One",
    showUrl := some "https://venue.example/20260115",
    sourceUrl := "https://venue.example/cal",
    headliners := ["A"], openers := [] }

/-- The same future show rescraped (fresh content hash, same content). -/
def futureShowA2 : VenueDataShow := { futureShowA with showId := "freshA" }

/-- A future show matching nothing in the previous batch. -/
def futureShowB : VenueDataShow :=
  { showId := "b1", dateISO := "2026-01-20", startTime := some "9:00 PM",
    venueId := "v1", venueName := "Venue One",
    showUrl := some "https://venue.example/20260120",
    sourceUrl := "https://venue.example/cal",
    headliners := ["Z"], openers := [] }

/-- The previously persisted file: one past show, one future show. -/
def prevFileV1 : VenueDataFile :=
  ⟨venueOne, "2026-01-05T00:00:00.000Z", [pastShowP, futureShowA]⟩

/-- A headliner row with no url. -/
def rowHeadB : ScrapedShow :=
  ⟨"2026-01-10", "20:00", ["B"], ["headliner"], "v1", "",
   "https://venue.example/cal"⟩

/-- An opener row with no url (attaches to a prior same-date show when
one exists, else creates an own, headliner-less record). -/
def rowOpenA : ScrapedShow :=
  ⟨"2026-01-10", "20:00", ["A"], ["opener"], "v1", "",
   "https://venue.example/cal"⟩

/-- A headliner row with a known time. -/
def rowTimed : ScrapedShow :=
  ⟨"2026-03-01", "19:00", ["X"], ["headliner"], "v1",
   "https://venue.example/x", "https://venue.example/cal"⟩

/-- A headliner row with an unknown time (empty, so startTime null). -/
def rowNoTime : ScrapedShow :=
  ⟨"2026-03-01", "", ["Y"], ["headliner"], "v1",
   "https://venue.example/y", "https://venue.example/cal"⟩

/-- The reference date 2026-01-05 of the spec's date-inference cases, as
a JS Date (UTC month is 0-based). -/
def refJan5 : JSDate := ⟨2026, 0, 5⟩

theorem contains_true_iff (s : List Nat) (i : Nat) :
    s.contains i = true ↔ i ∈ s := by
  simp [List.contains, List.elem_iff]

theorem addIfAbsent_mem (s : List Nat) (i x : Nat) :
    x ∈ addIfAbsent s i ↔ x = i ∨ x ∈ s := by
  unfold addIfAbsent
  split
  · rename_i h
    rw [contains_true_iff] at h
    constructor
    · exact Or.inr
    · rintro (rfl | hx)
      · exact h
      · exact hx
  · simp [List.mem_cons]

theorem addIfAbsent_nodup (s : List Nat) (i : Nat) (h : s.Nodup) :
    (addIfAbsent s i).Nodup := by
  unfold addIfAbsent
  split
  · exact h
  · rename_i hc
    refine List.Nodup.cons ?_ h
    intro hmem
    exact hc ((contains_true_iff s i).mpr hmem)

theorem keyIndices_mem_lt (previous : List VenueDataShow)
    (mp0 : List Nat) (kf : VenueDataShow → String) (key : String)
    (p : Nat) (h : p ∈ keyIndices previous mp0 kf key) :
    p < previous.length := by
  unfold keyIndices at h
  have := List.mem_range.mp (List.mem_of_mem_filter h)
  exact this

theorem tryMatchGo_matchedPrev_mem (previous next : List VenueDataShow)
    (kf : VenueDataShow → String) (mp0 : List Nat) :
    ∀ (js : List Nat) (st : MatchState) (x : Nat),
      x ∈ (tryMatchGo previous next kf mp0 js st).1.matchedPrev ↔
        x ∈ st.matchedPrev ∨
          x ∈ (tryMatchGo previous next kf mp0 js st).2.map
            MatchPair.prevIndex := by
  intro js
  induction js with
  | nil => intro st x; simp [tryMatchGo]
  | cons j js ih =>
    intro st x
    rw [tryMatchGo]
    split
    · exact ih st x
    · dsimp only
      split
      · exact ih st x
      · split
        · rename_i p hp
          dsimp only
          rw [ih, List.map_cons, List.mem_cons]
          dsimp only
          rw [addIfAbsent_mem]
          tauto
        · exact ih st x

theorem tryMatchGo_matchedNext_mem (previous next : List VenueDataShow)
    (kf : VenueDataShow → String) (mp0 : List Nat) :
    ∀ (js : List Nat) (st : MatchState) (x : Nat),
      x ∈ (tryMatchGo previous next kf mp0 js st).1.matchedNext ↔
        x ∈ st.matchedNext ∨
          x ∈ (tryMatchGo previous next kf mp0 js st).2.map
            MatchPair.nextIndex := by
  intro js
  induction js with
  | nil => intro st x; simp [tryMatchGo]
  | cons j js ih =>
    intro st x
    rw [tryMatchGo]
    split
    · exact ih st x
    · dsimp only
      split
      · exact ih st x
      · split
        · rename_i p hp
          dsimp only
          rw [ih, List.map_cons, List.mem_cons]
          dsimp only
          rw [addIfAbsent_mem]
          tauto
        · exact ih st x

theorem tryMatchGo_pairs_nextIndex_not_in
    (previous next : List VenueDataShow) (kf : VenueDataShow → String)
    (mp0 : List Nat) :
    ∀ (js : List Nat) (st : MatchState) (pr : MatchPair),
      pr ∈ (tryMatchGo previous next kf mp0 js st).2 →
        pr.nextIndex ∉ st.matchedNext := by
  intro js
  induction js with
  | nil => intro st pr h; simp [tryMatchGo] at h
  | cons j js ih =>
    intro st pr h
    rw [tryMatchGo] at h
    split at h
    · exact ih st pr h
    · rename_i hj
      dsimp only at h
      split at h
      · exact ih st pr h
      · split at h
        · rename_i p hp
          dsimp only at h
          rw [List.mem_cons] at h
          rcases h with rfl | h
          · intro hmem
            exact hj ((contains_true_iff _ _).mpr hmem)
          · intro hmem
            exact ih _ pr h ((addIfAbsent_mem _ _ _).mpr (Or.inr hmem))
        · exact ih st pr h

theorem tryMatchGo_pairs_nextIndex_nodup
    (previous next : List VenueDataShow) (kf : VenueDataShow → String)
    (mp0 : List Nat) :
    ∀ (js : List Nat) (st : MatchState),
      ((tryMatchGo previous next kf mp0 js st).2.map
        MatchPair.nextIndex).Nodup := by
  intro js
  induction js with
  | nil => intro st; simp [tryMatchGo]
  | cons j js ih =>
    intro st
    rw [tryMatchGo]
    split
    · exact ih st
    · dsimp only
      split
      · exact ih st
      · split
        · rename_i p hp
          dsimp only
          rw [List.map_cons]
          refine List.Nodup.cons ?_ (ih _)
          intro hmem
          rw [List.mem_map] at hmem
          obtain ⟨pr, hpr, heq⟩ := hmem
          have := tryMatchGo_pairs_nextIndex_not_in previous next kf mp0
            js _ pr hpr
          exact this ((addIfAbsent_mem _ _ _).mpr (Or.inl heq))
        · exact ih st

theorem tryMatchGo_pairs_spec (previous next : List VenueDataShow)
    (kf : VenueDataShow → String) (mp0 : List Nat) :
    ∀ (js : List Nat) (st : MatchState) (pr : MatchPair),
      pr ∈ (tryMatchGo previous next kf mp0 js st).2 →
        pr.nextIndex ∈ js ∧
        kf (next.getD pr.nextIndex default) ≠ "" ∧
        keyIndices previous mp0 kf (kf (next.getD pr.nextIndex default))
          = [pr.prevIndex] := by
  intro js
  induction js with
  | nil => intro st pr h; simp [tryMatchGo] at h
  | cons j js ih =>
    intro st pr h
    rw [tryMatchGo] at h
    split at h
    · obtain ⟨h1, h2⟩ := ih st pr h
      exact ⟨List.mem_cons_of_mem _ h1, h2⟩
    · dsimp only at h
      split at h
      · obtain ⟨h1, h2⟩ := ih st pr h
        exact ⟨List.mem_cons_of_mem _ h1, h2⟩
      · split at h
        · rename_i p hp
          dsimp only at h
          rw [List.mem_cons] at h
          rcases h with rfl | h
          · rename_i hkey _
            exact ⟨List.mem_cons_self _ _, hkey, hp⟩
          · obtain ⟨h1, h2⟩ := ih _ pr h
            exact ⟨List.mem_cons_of_mem _ h1, h2⟩
        · obtain ⟨h1, h2⟩ := ih st pr h
          exact ⟨List.mem_cons_of_mem _ h1, h2⟩

theorem tryMatchGo_matchedPrev_nodup
    (previous next : List VenueDataShow) (kf : VenueDataShow → String)
    (mp0 : List Nat) :
    ∀ (js : List Nat) (st : MatchState),
      st.matchedPrev.Nodup →
        (tryMatchGo previous next kf mp0 js st).1.matchedPrev.Nodup := by
  intro js
  induction js with
  | nil => intro st h; simpa [tryMatchGo] using h
  | cons j js ih =>
    intro st h
    rw [tryMatchGo]
    split
    · exact ih st h
    · dsimp only
      split
      · exact ih st h
      · split
        · exact ih _ (addIfAbsent_nodup _ _ h)
        · exact ih st h

theorem tryMatchGo_matchedNext_nodup
    (previous next : List VenueDataShow) (kf : VenueDataShow → String)
    (mp0 : List Nat) :
    ∀ (js : List Nat) (st : MatchState),
      st.matchedNext.Nodup →
        (tryMatchGo previous next kf mp0 js st).1.matchedNext.Nodup := by
  intro js
  induction js with
  | nil => intro st h; simpa [tryMatchGo] using h
  | cons j js ih =>
    intro st h
    rw [tryMatchGo]
    split
    · exact ih st h
    · dsimp only
      split
      · exact ih st h
      · split
        · exact ih _ (addIfAbsent_nodup _ _ h)
        · exact ih st h

theorem tryMatchGo_congr (previous : List VenueDataShow)
    (next₁ next₂ : List VenueDataShow) (kf : VenueDataShow → String)
    (mp0 : List Nat)
    (hkeys : ∀ j, kf (next₁.getD j default) = kf (next₂.getD j default)) :
    ∀ (js : List Nat) (st : MatchState),
      tryMatchGo previous next₁ kf mp0 js st
        = tryMatchGo previous next₂ kf mp0 js st := by
  intro js
  induction js with
  | nil => intro st; simp [tryMatchGo]
  | cons j js ih =>
    intro st
    rw [tryMatchGo, tryMatchGo]
    rw [hkeys j]
    split
    · exact ih st
    · dsimp only
      split
      · exact ih st
      · split
        · rw [ih]
        · exact ih st

theorem setShowIdAt_length (l : List VenueDataShow) (i : Nat)
    (sid : String) : (setShowIdAt l i sid).length = l.length := by
  unfold setShowIdAt
  split
  · simp
  · rfl

theorem setShowIdAt_get?_ne (l : List VenueDataShow) (i i' : Nat)
    (sid : String) (h : i' ≠ i) :
    (setShowIdAt l i sid).get? i' = l.get? i' := by
  unfold setShowIdAt
  split
  · simp only [List.get?_eq_getElem?]
    exact List.getElem?_set_ne (fun he => h he.symm)
  · rfl

theorem setShowIdAt_get?_self (l : List VenueDataShow) (i : Nat)
    (sid : String) :
    (setShowIdAt l i sid).get? i
      = (l.get? i).map (fun s => { s with showId := sid }) := by
  unfold setShowIdAt
  split
  · rename_i s hs
    simp only [List.get?_eq_getElem?] at hs ⊢
    rw [List.getElem?_set_self', hs]
    rfl
  · rename_i hs
    rw [hs]
    rfl

theorem applyPairs_length (previousShows : List VenueDataShow)
    (pairs : List MatchPair) :
    ∀ l, (applyPairs l previousShows pairs).length = l.length := by
  induction pairs with
  | nil => intro l; rfl
  | cons q rest ih =>
    intro l
    show (applyPairs (setShowIdAt l _ _) previousShows rest).length = _
    rw [ih, setShowIdAt_length]

theorem applyPairs_get?_stripId (previousShows : List VenueDataShow)
    (pairs : List MatchPair) :
    ∀ l j, ((applyPairs l previousShows pairs).get? j).map stripId
      = (l.get? j).map stripId := by
  induction pairs with
  | nil => intro l j; rfl
  | cons q rest ih =>
    intro l j
    show ((applyPairs (setShowIdAt l _ _) previousShows rest).get? j).map
      stripId = _
    rw [ih]
    by_cases hj : j = q.nextIndex
    · subst hj
      rw [setShowIdAt_get?_self, Option.map_map]
      rfl
    · rw [setShowIdAt_get?_ne _ _ _ _ hj]

theorem applyPairs_get?_not_mem (previousShows : List VenueDataShow)
    (pairs : List MatchPair) :
    ∀ l j, j ∉ pairs.map MatchPair.nextIndex →
      (applyPairs l previousShows pairs).get? j = l.get? j := by
  induction pairs with
  | nil => intro l j _; rfl
  | cons q rest ih =>
    intro l j hj
    rw [List.map_cons, List.mem_cons] at hj
    push_neg at hj
    show (applyPairs (setShowIdAt l _ _) previousShows rest).get? j = _
    rw [ih _ _ hj.2, setShowIdAt_get?_ne _ _ _ _ hj.1]

theorem applyPairs_get?_of_mem (previousShows : List VenueDataShow)
    (pairs : List MatchPair) :
    ∀ l pr, (pairs.map MatchPair.nextIndex).Nodup → pr ∈ pairs →
      (applyPairs l previousShows pairs).get? pr.nextIndex
        = (l.get? pr.nextIndex).map
            (fun s =>
              { s with
                showId :=
                  (previousShows.getD pr.prevIndex default).showId }) := by
  induction pairs with
  | nil => intro l pr _ h; simp at h
  | cons q rest ih =>
    intro l pr hnodup hmem
    rw [List.map_cons] at hnodup
    have hqrest := (List.nodup_cons.mp hnodup).1
    have hrest := (List.nodup_cons.mp hnodup).2
    rcases List.mem_cons.mp hmem with rfl | hmem
    · show (applyPairs (setShowIdAt l _ _) previousShows rest).get? _ = _
      rw [applyPairs_get?_not_mem _ _ _ _ hqrest, setShowIdAt_get?_self]
    · have hne : pr.nextIndex ≠ q.nextIndex := by
        intro he
        exact hqrest (he ▸ List.mem_map_of_mem MatchPair.nextIndex hmem)
      show (applyPairs (setShowIdAt l _ _) previousShows rest).get? _ = _
      rw [ih _ _ hrest hmem, setShowIdAt_get?_ne _ _ _ _ hne]

theorem buildShowKey_stripId (s : VenueDataShow) :
    buildShowKey (stripId s) = buildShowKey s := rfl

theorem buildStableShowKey_stripId (s : VenueDataShow) :
    buildStableShowKey (stripId s) = buildStableShowKey s := rfl

theorem buildUrlKey_stripId (s : VenueDataShow) :
    buildUrlKey (stripId s) = buildUrlKey s := rfl

theorem buildDateTimeKey_stripId (s : VenueDataShow) :
    buildDateTimeKey (stripId s) = buildDateTimeKey s := rfl

theorem buildHeadlinerTimeKey_stripId (s : VenueDataShow) :
    buildHeadlinerTimeKey (stripId s) = buildHeadlinerTimeKey s := rfl

theorem StripIdEq.trans {a b c : List VenueDataShow}
    (h1 : StripIdEq a b) (h2 : StripIdEq b c) : StripIdEq a c :=
  fun j => (h1 j).trans (h2 j)

theorem StripIdEq.length_eq {l₁ l₂ : List VenueDataShow}
    (h : StripIdEq l₁ l₂) : l₁.length = l₂.length := by
  by_contra hne
  rcases Nat.lt_or_ge l₁.length l₂.length with hlt | hge
  · have h1 : l₁.get? l₁.length = none := List.get?_eq_none.mpr le_rfl
    have h2 : l₂.get? l₁.length ≠ none := by
      rw [ne_eq, List.get?_eq_none]
      omega
    have := h l₁.length
    rw [h1] at this
    cases hx : l₂.get? l₁.length with
    | none => exact h2 hx
    | some v => rw [hx] at this; simp at this
  · have hlt2 : l₂.length < l₁.length := by omega
    have h1 : l₂.get? l₂.length = none := List.get?_eq_none.mpr le_rfl
    have := h l₂.length
    rw [h1] at this
    cases hx : l₁.get? l₂.length with
    | none =>
      rw [List.get?_eq_none] at hx
      omega
    | some v => rw [hx] at this; simp at this

theorem StripIdEq.applyPairs (l : List VenueDataShow)
    (previousShows : List VenueDataShow) (pairs : List MatchPair) :
    StripIdEq (applyPairs l previousShows pairs) l :=
  fun j => applyPairs_get?_stripId previousShows pairs l j

theorem StripIdEq.keyD {l₁ l₂ : List VenueDataShow}
    (h : StripIdEq l₁ l₂) (kf : VenueDataShow → String)
    (hkf : ∀ s, kf (stripId s) = kf s) (j : Nat) :
    kf (l₁.getD j default) = kf (l₂.getD j default) := by
  have hj := h j
  rw [List.getD_eq_get?, List.getD_eq_get?]
  cases h1 : l₁.get? j with
  | none =>
    rw [h1] at hj
    cases h2 : l₂.get? j with
    | none => rfl
    | some v => rw [h2] at hj; simp at hj
  | some v =>
    rw [h1] at hj
    cases h2 : l₂.get? j with
    | none => rw [h2] at hj; simp at hj
    | some w =>
      rw [h2] at hj
      have hv : stripId v = stripId w := by
        simp only [Option.map_some'] at hj
        exact Option.some.inj hj
      simp only [Option.getD_some]
      calc kf v = kf (stripId v) := (hkf v).symm
        _ = kf (stripId w) := by rw [hv]
        _ = kf w := hkf w

theorem tryMatch_congr {previous l₁ l₂ : List VenueDataShow}
    (st : MatchState) (kf : VenueDataShow → String)
    (hkf : ∀ s, kf (stripId s) = kf s) (h : StripIdEq l₁ l₂) :
    tryMatch previous l₁ st kf = tryMatch previous l₂ st kf := by
  unfold tryMatch
  rw [h.length_eq]
  exact tryMatchGo_congr previous l₁ l₂ kf st.matchedPrev
    (fun j => h.keyD kf hkf j) _ st

theorem preserveShowIds_eq_passes
    (nextShows previousShows : List VenueDataShow) :
    preserveShowIds nextShows previousShows
      = applyPairs (applyPairs (applyPairs (applyPairs
          (applyPairs nextShows previousShows
            (pass1 previousShows nextShows).2) previousShows
            (pass2 previousShows nextShows).2) previousShows
            (pass3 previousShows nextShows).2) previousShows
            (pass4 previousShows nextShows).2) previousShows
            (pass5 previousShows nextShows).2 := by
  unfold preserveShowIds
  dsimp only
  rw [tryMatch_congr _ buildStableShowKey buildStableShowKey_stripId
    (StripIdEq.applyPairs _ _ _)]
  rw [tryMatch_congr _ buildUrlKey buildUrlKey_stripId
    ((StripIdEq.applyPairs _ _ _).trans (StripIdEq.applyPairs _ _ _))]
  rw [tryMatch_congr _ buildDateTimeKey buildDateTimeKey_stripId
    ((StripIdEq.applyPairs _ _ _).trans
      ((StripIdEq.applyPairs _ _ _).trans (StripIdEq.applyPairs _ _ _)))]
  rw [tryMatch_congr _ buildHeadlinerTimeKey buildHeadlinerTimeKey_stripId
    ((StripIdEq.applyPairs _ _ _).trans
      ((StripIdEq.applyPairs _ _ _).trans
        ((StripIdEq.applyPairs _ _ _).trans (StripIdEq.applyPairs _ _ _))))]
  rfl

theorem tryMatch_pairs_spec (previous next : List VenueDataShow)
    (st : MatchState) (kf : VenueDataShow → String) (pr : MatchPair)
    (h : pr ∈ (tryMatch previous next st kf).2) :
    pr.nextIndex < next.length ∧
    kf (next.getD pr.nextIndex default) ≠ "" ∧
    keyIndices previous st.matchedPrev kf
      (kf (next.getD pr.nextIndex default)) = [pr.prevIndex] := by
  have := tryMatchGo_pairs_spec previous next kf st.matchedPrev
    (List.range next.length) st pr h
  exact ⟨List.mem_range.mp this.1, this.2⟩

theorem tryMatch_pairs_prevIndex_lt (previous next : List VenueDataShow)
    (st : MatchState) (kf : VenueDataShow → String) (pr : MatchPair)
    (h : pr ∈ (tryMatch previous next st kf).2) :
    pr.prevIndex < previous.length := by
  have hspec := (tryMatch_pairs_spec previous next st kf pr h).2.2
  exact keyIndices_mem_lt previous st.matchedPrev kf _ pr.prevIndex
    (hspec ▸ List.mem_singleton_self _)

theorem tryMatch_pairs_nodup (previous next : List VenueDataShow)
    (st : MatchState) (kf : VenueDataShow → String) :
    (((tryMatch previous next st kf).2).map MatchPair.nextIndex).Nodup :=
  tryMatchGo_pairs_nextIndex_nodup previous next kf st.matchedPrev
    (List.range next.length) st

theorem tryMatch_matchedNext_mem (previous next : List VenueDataShow)
    (st : MatchState) (kf : VenueDataShow → String) (x : Nat) :
    x ∈ (tryMatch previous next st kf).1.matchedNext ↔
      x ∈ st.matchedNext ∨
        x ∈ ((tryMatch previous next st kf).2).map MatchPair.nextIndex :=
  tryMatchGo_matchedNext_mem previous next kf st.matchedPrev
    (List.range next.length) st x

theorem tryMatch_matchedPrev_mem (previous next : List VenueDataShow)
    (st : MatchState) (kf : VenueDataShow → String) (x : Nat) :
    x ∈ (tryMatch previous next st kf).1.matchedPrev ↔
      x ∈ st.matchedPrev ∨
        x ∈ ((tryMatch previous next st kf).2).map MatchPair.prevIndex :=
  tryMatchGo_matchedPrev_mem previous next kf st.matchedPrev
    (List.range next.length) st x

theorem tryMatch_pairs_not_in (previous next : List VenueDataShow)
    (st : MatchState) (kf : VenueDataShow → String) (pr : MatchPair)
    (h : pr ∈ (tryMatch previous next st kf).2) :
    pr.nextIndex ∉ st.matchedNext :=
  tryMatchGo_pairs_nextIndex_not_in previous next kf st.matchedPrev
    (List.range next.length) st pr h

theorem preserveShowIds_stable_pair
    (prev next : List VenueDataShow) (pr : MatchPair)
    (hpr : pr ∈ (pass2 prev next).2) :
    ((preserveShowIds next prev).get? pr.nextIndex).map
        VenueDataShow.showId
      = (prev.get? pr.prevIndex).map VenueDataShow.showId := by
  rw [preserveShowIds_eq_passes]
  have hnextlt : pr.nextIndex < next.length :=
    (tryMatch_pairs_spec _ _ _ _ pr hpr).1
  have hprevlt : pr.prevIndex < prev.length :=
    tryMatch_pairs_prevIndex_lt _ _ _ _ pr hpr
  -- pr.nextIndex is consumed after pass 2
  have hin2 : pr.nextIndex ∈ (pass2 prev next).1.matchedNext :=
    (tryMatch_matchedNext_mem _ _ _ _ _).mpr
      (Or.inr (List.mem_map_of_mem _ hpr))
  have hin3 : pr.nextIndex ∈ (pass3 prev next).1.matchedNext :=
    (tryMatch_matchedNext_mem _ _ _ _ _).mpr (Or.inl hin2)
  have hin4 : pr.nextIndex ∈ (pass4 prev next).1.matchedNext :=
    (tryMatch_matchedNext_mem _ _ _ _ _).mpr (Or.inl hin3)
  -- so passes 3-5 never touch index pr.nextIndex
  have havoid3 : pr.nextIndex ∉
      ((pass3 prev next).2).map MatchPair.nextIndex := by
    intro hmem
    obtain ⟨q, hq, hqe⟩ := List.mem_map.mp hmem
    exact tryMatch_pairs_not_in _ _ _ _ q hq (hqe ▸ hin2)
  have havoid4 : pr.nextIndex ∉
      ((pass4 prev next).2).map MatchPair.nextIndex := by
    intro hmem
    obtain ⟨q, hq, hqe⟩ := List.mem_map.mp hmem
    exact tryMatch_pairs_not_in _ _ _ _ q hq (hqe ▸ hin3)
  have havoid5 : pr.nextIndex ∉
      ((pass5 prev next).2).map MatchPair.nextIndex := by
    intro hmem
    obtain ⟨q, hq, hqe⟩ := List.mem_map.mp hmem
    exact tryMatch_pairs_not_in _ _ _ _ q hq (hqe ▸ hin4)
  have hnodup2 : ((pass2 prev next).2.map MatchPair.nextIndex).Nodup :=
    tryMatch_pairs_nodup _ _ _ _
  rw [applyPairs_get?_not_mem _ _ _ _ havoid5,
    applyPairs_get?_not_mem _ _ _ _ havoid4,
    applyPairs_get?_not_mem _ _ _ _ havoid3,
    applyPairs_get?_of_mem _ _ _ pr hnodup2 hpr]
  rw [Option.map_map]
  have hlen : pr.nextIndex
      < (applyPairs next prev (pass1 prev next).2).length := by
    rw [applyPairs_length]
    exact hnextlt
  rw [List.get?_eq_get hlen, List.get?_eq_get hprevlt]
  simp [List.getD_eq_get?, List.get?_eq_get hprevlt,
    List.getElem?_eq_getElem hprevlt]

theorem cascade_matchedPrev_mem (prev next : List VenueDataShow)
    (x : Nat) :
    x ∈ (pass5 prev next).1.matchedPrev ↔
      x ∈ (cascadeAllPairs prev next).map MatchPair.prevIndex := by
  unfold cascadeAllPairs
  unfold pass5 pass4 pass3 pass2 pass1
  rw [tryMatch_matchedPrev_mem, tryMatch_matchedPrev_mem,
    tryMatch_matchedPrev_mem, tryMatch_matchedPrev_mem,
    tryMatch_matchedPrev_mem]
  simp only [List.map_append, List.mem_append, List.not_mem_nil,
    false_or]

theorem cascade_matchedNext_mem (prev next : List VenueDataShow)
    (x : Nat) :
    x ∈ (pass5 prev next).1.matchedNext ↔
      x ∈ (cascadeAllPairs prev next).map MatchPair.nextIndex := by
  unfold cascadeAllPairs
  unfold pass5 pass4 pass3 pass2 pass1
  rw [tryMatch_matchedNext_mem, tryMatch_matchedNext_mem,
    tryMatch_matchedNext_mem, tryMatch_matchedNext_mem,
    tryMatch_matchedNext_mem]
  simp only [List.map_append, List.mem_append, List.not_mem_nil,
    false_or]

theorem filter_not_contains_length (M : List Nat) (n : Nat)
    (hnd : M.Nodup) (hlt : ∀ x ∈ M, x < n) :
    ((List.range n).filter (fun i => !(M.contains i))).length
      = n - M.length := by
  have h1 : ((List.range n).filter (fun i => M.contains i)).length
      = M.length := by
    apply List.Perm.length_eq
    apply List.perm_of_nodup_nodup_toFinset_eq
    · exact List.Nodup.filter _ (List.nodup_range n)
    · exact hnd
    · ext a
      simp only [List.mem_toFinset, List.mem_filter, List.mem_range,
        contains_true_iff]
      constructor
      · rintro ⟨_, h⟩
        exact h
      · intro h
        exact ⟨hlt a h, h⟩
  have h2 : (List.range n).length
      = ((List.range n).filter (fun i => M.contains i)).length
        + ((List.range n).filter (fun i => !(M.contains i))).length := by
    have hfun : (fun i : Nat => !(M.contains i))
        = (fun i : Nat => decide (¬ (M.contains i = true))) := by
      funext i
      cases M.contains i <;> simp
    rw [hfun, ← List.countP_eq_length_filter,
      ← List.countP_eq_length_filter]
    exact List.length_eq_countP_add_countP (fun i => M.contains i)
      (List.range n)
  rw [List.length_range] at h2
  omega

theorem tryMatch_matchedPrev_nodup (previous next : List VenueDataShow)
    (st : MatchState) (kf : VenueDataShow → String)
    (h : st.matchedPrev.Nodup) :
    (tryMatch previous next st kf).1.matchedPrev.Nodup :=
  tryMatchGo_matchedPrev_nodup previous next kf st.matchedPrev
    (List.range next.length) st h

theorem tryMatch_matchedNext_nodup (previous next : List VenueDataShow)
    (st : MatchState) (kf : VenueDataShow → String)
    (h : st.matchedNext.Nodup) :
    (tryMatch previous next st kf).1.matchedNext.Nodup :=
  tryMatchGo_matchedNext_nodup previous next kf st.matchedPrev
    (List.range next.length) st h

theorem tryMatch_matchedPrev_lt (previous next : List VenueDataShow)
    (st : MatchState) (kf : VenueDataShow → String)
    (h : ∀ x ∈ st.matchedPrev, x < previous.length) :
    ∀ x ∈ (tryMatch previous next st kf).1.matchedPrev,
      x < previous.length := by
  intro x hx
  rcases (tryMatch_matchedPrev_mem previous next st kf x).mp hx with
    h1 | h1
  · exact h x h1
  · obtain ⟨q, hq, hqe⟩ := List.mem_map.mp h1
    exact hqe ▸ tryMatch_pairs_prevIndex_lt _ _ _ _ q hq

theorem tryMatch_matchedNext_lt (previous next : List VenueDataShow)
    (st : MatchState) (kf : VenueDataShow → String)
    (h : ∀ x ∈ st.matchedNext, x < next.length) :
    ∀ x ∈ (tryMatch previous next st kf).1.matchedNext,
      x < next.length := by
  intro x hx
  rcases (tryMatch_matchedNext_mem previous next st kf x).mp hx with
    h1 | h1
  · exact h x h1
  · obtain ⟨q, hq, hqe⟩ := List.mem_map.mp h1
    exact hqe ▸ (tryMatch_pairs_spec _ _ _ _ q hq).1

theorem pass5_matchedPrev_nodup (prev next : List VenueDataShow) :
    (pass5 prev next).1.matchedPrev.Nodup :=
  tryMatch_matchedPrev_nodup _ _ _ _
    (tryMatch_matchedPrev_nodup _ _ _ _
      (tryMatch_matchedPrev_nodup _ _ _ _
        (tryMatch_matchedPrev_nodup _ _ _ _
          (tryMatch_matchedPrev_nodup _ _ _ _ List.nodup_nil))))

theorem pass5_matchedNext_nodup (prev next : List VenueDataShow) :
    (pass5 prev next).1.matchedNext.Nodup :=
  tryMatch_matchedNext_nodup _ _ _ _
    (tryMatch_matchedNext_nodup _ _ _ _
      (tryMatch_matchedNext_nodup _ _ _ _
        (tryMatch_matchedNext_nodup _ _ _ _
          (tryMatch_matchedNext_nodup _ _ _ _ List.nodup_nil))))

theorem pass5_matchedPrev_lt (prev next : List VenueDataShow) :
    ∀ x ∈ (pass5 prev next).1.matchedPrev, x < prev.length :=
  tryMatch_matchedPrev_lt _ _ _ _
    (tryMatch_matchedPrev_lt _ _ _ _
      (tryMatch_matchedPrev_lt _ _ _ _
        (tryMatch_matchedPrev_lt _ _ _ _
          (tryMatch_matchedPrev_lt _ _ _ _ (by intro x hx; cases hx)))))

theorem pass5_matchedNext_lt (prev next : List VenueDataShow) :
    ∀ x ∈ (pass5 prev next).1.matchedNext, x < next.length :=
  tryMatch_matchedNext_lt _ _ _ _
    (tryMatch_matchedNext_lt _ _ _ _
      (tryMatch_matchedNext_lt _ _ _ _
        (tryMatch_matchedNext_lt _ _ _ _
          (tryMatch_matchedNext_lt _ _ _ _ (by intro x hx; cases hx)))))

theorem cascade_nextIndices_nodup (prev next : List VenueDataShow) :
    ((cascadeAllPairs prev next).map MatchPair.nextIndex).Nodup := by
  have nd1 := tryMatch_pairs_nodup prev next ⟨[], []⟩ buildShowKey
  have nd2 := tryMatch_pairs_nodup prev next (pass1 prev next).1
    buildStableShowKey
  have nd3 := tryMatch_pairs_nodup prev next (pass2 prev next).1
    buildUrlKey
  have nd4 := tryMatch_pairs_nodup prev next (pass3 prev next).1
    buildDateTimeKey
  have nd5 := tryMatch_pairs_nodup prev next (pass4 prev next).1
    buildHeadlinerTimeKey
  have mem1 : ∀ x ∈ ((pass1 prev next).2).map MatchPair.nextIndex,
      x ∈ (pass1 prev next).1.matchedNext := fun x hx =>
    (tryMatch_matchedNext_mem _ _ _ _ x).mpr (Or.inr hx)
  have notin2 : ∀ x ∈ ((pass2 prev next).2).map MatchPair.nextIndex,
      x ∉ (pass1 prev next).1.matchedNext := by
    intro x hx
    obtain ⟨q, hq, hqe⟩ := List.mem_map.mp hx
    exact hqe ▸ tryMatch_pairs_not_in _ _ _ _ q hq
  have notin3 : ∀ x ∈ ((pass3 prev next).2).map MatchPair.nextIndex,
      x ∉ (pass2 prev next).1.matchedNext := by
    intro x hx
    obtain ⟨q, hq, hqe⟩ := List.mem_map.mp hx
    exact hqe ▸ tryMatch_pairs_not_in _ _ _ _ q hq
  have notin4 : ∀ x ∈ ((pass4 prev next).2).map MatchPair.nextIndex,
      x ∉ (pass3 prev next).1.matchedNext := by
    intro x hx
    obtain ⟨q, hq, hqe⟩ := List.mem_map.mp hx
    exact hqe ▸ tryMatch_pairs_not_in _ _ _ _ q hq
  have notin5 : ∀ x ∈ ((pass5 prev next).2).map MatchPair.nextIndex,
      x ∉ (pass4 prev next).1.matchedNext := by
    intro x hx
    obtain ⟨q, hq, hqe⟩ := List.mem_map.mp hx
    exact hqe ▸ tryMatch_pairs_not_in _ _ _ _ q hq
  have nd12 : (((pass1 prev next).2).map MatchPair.nextIndex
      ++ ((pass2 prev next).2).map MatchPair.nextIndex).Nodup := by
    refine List.Nodup.append nd1 nd2 ?_
    intro a ha hb
    exact notin2 a hb (mem1 a ha)
  have mem2 : ∀ x ∈ ((pass1 prev next).2).map MatchPair.nextIndex
      ++ ((pass2 prev next).2).map MatchPair.nextIndex,
      x ∈ (pass2 prev next).1.matchedNext := by
    intro x hx
    rcases List.mem_append.mp hx with hx | hx
    · exact (tryMatch_matchedNext_mem _ _ _ _ x).mpr (Or.inl (mem1 x hx))
    · exact (tryMatch_matchedNext_mem _ _ _ _ x).mpr (Or.inr hx)
  have nd123 : ((((pass1 prev next).2).map MatchPair.nextIndex
      ++ ((pass2 prev next).2).map MatchPair.nextIndex)
      ++ ((pass3 prev next).2).map MatchPair.nextIndex).Nodup := by
    refine List.Nodup.append nd12 nd3 ?_
    intro a ha hb
    exact notin3 a hb (mem2 a ha)
  have mem3 : ∀ x ∈ (((pass1 prev next).2).map MatchPair.nextIndex
      ++ ((pass2 prev next).2).map MatchPair.nextIndex)
      ++ ((pass3 prev next).2).map MatchPair.nextIndex,
      x ∈ (pass3 prev next).1.matchedNext := by
    intro x hx
    rcases List.mem_append.mp hx with hx | hx
    · exact (tryMatch_matchedNext_mem _ _ _ _ x).mpr (Or.inl (mem2 x hx))
    · exact (tryMatch_matchedNext_mem _ _ _ _ x).mpr (Or.inr hx)
  have nd1234 : (((((pass1 prev next).2).map MatchPair.nextIndex
      ++ ((pass2 prev next).2).map MatchPair.nextIndex)
      ++ ((pass3 prev next).2).map MatchPair.nextIndex)
      ++ ((pass4 prev next).2).map MatchPair.nextIndex).Nodup := by
    refine List.Nodup.append nd123 nd4 ?_
    intro a ha hb
    exact notin4 a hb (mem3 a ha)
  have mem4 : ∀ x ∈ ((((pass1 prev next).2).map MatchPair.nextIndex
      ++ ((pass2 prev next).2).map MatchPair.nextIndex)
      ++ ((pass3 prev next).2).map MatchPair.nextIndex)
      ++ ((pass4 prev next).2).map MatchPair.nextIndex,
      x ∈ (pass4 prev next).1.matchedNext := by
    intro x hx
    rcases List.mem_append.mp hx with hx | hx
    · exact (tryMatch_matchedNext_mem _ _ _ _ x).mpr (Or.inl (mem3 x hx))
    · exact (tryMatch_matchedNext_mem _ _ _ _ x).mpr (Or.inr hx)
  have ndall : ((((((pass1 prev next).2).map MatchPair.nextIndex
      ++ ((pass2 prev next).2).map MatchPair.nextIndex)
      ++ ((pass3 prev next).2).map MatchPair.nextIndex)
      ++ ((pass4 prev next).2).map MatchPair.nextIndex)
      ++ ((pass5 prev next).2).map MatchPair.nextIndex).Nodup := by
    refine List.Nodup.append nd1234 nd5 ?_
    intro a ha hb
    exact notin5 a hb (mem4 a ha)
  unfold cascadeAllPairs
  simpa [List.map_append] using ndall

theorem diffShows_eq_passes (prev next : List VenueDataShow) :
    diffShows prev next =
      { removed := prev.length - (pass5 prev next).1.matchedPrev.length
        unchanged := (pass1 prev next).2.length
        updated := ((pass2 prev next).2 ++ (pass3 prev next).2
          ++ (pass4 prev next).2 ++ (pass5 prev next).2).length
        added :=
          next.length - (pass5 prev next).1.matchedNext.length } := rfl

theorem diffShows_removed_count (prev next : List VenueDataShow) :
    (diffShows prev next).removed
      = ((List.range prev.length).filter
          (fun i =>
            !(((cascadeAllPairs prev next).map
                MatchPair.prevIndex).contains i))).length := by
  have hc : ∀ i ∈ List.range prev.length,
      (!(((cascadeAllPairs prev next).map
        MatchPair.prevIndex).contains i))
      = (!((pass5 prev next).1.matchedPrev.contains i)) := by
    intro i _
    have : (((cascadeAllPairs prev next).map
        MatchPair.prevIndex).contains i)
        = ((pass5 prev next).1.matchedPrev.contains i) := by
      rw [Bool.eq_iff_iff, contains_true_iff, contains_true_iff]
      exact (cascade_matchedPrev_mem prev next i).symm
    rw [this]
  rw [List.filter_congr hc,
    filter_not_contains_length _ _ (pass5_matchedPrev_nodup prev next)
      (pass5_matchedPrev_lt prev next)]
  rfl

theorem diffShows_added_count (prev next : List VenueDataShow) :
    (diffShows prev next).added
      = ((List.range next.length).filter
          (fun i =>
            !(((cascadeAllPairs prev next).map
                MatchPair.nextIndex).contains i))).length := by
  have hc : ∀ i ∈ List.range next.length,
      (!(((cascadeAllPairs prev next).map
        MatchPair.nextIndex).contains i))
      = (!((pass5 prev next).1.matchedNext.contains i)) := by
    intro i _
    have : (((cascadeAllPairs prev next).map
        MatchPair.nextIndex).contains i)
        = ((pass5 prev next).1.matchedNext.contains i) := by
      rw [Bool.eq_iff_iff, contains_true_iff, contains_true_iff]
      exact (cascade_matchedNext_mem prev next i).symm
    rw [this]
  rw [List.filter_congr hc,
    filter_not_contains_length _ _ (pass5_matchedNext_nodup prev next)
      (pass5_matchedNext_lt prev next)]
  rfl

theorem preserveShowIds_length (nextShows previousShows :
    List VenueDataShow) :
    (preserveShowIds nextShows previousShows).length
      = nextShows.length := by
  rw [preserveShowIds_eq_passes, applyPairs_length, applyPairs_length,
    applyPairs_length, applyPairs_length, applyPairs_length]

theorem preserveShowIds_stripIdEq (nextShows previousShows :
    List VenueDataShow) :
    StripIdEq (preserveShowIds nextShows previousShows) nextShows := by
  rw [preserveShowIds_eq_passes]
  exact (StripIdEq.applyPairs _ _ _).trans
    ((StripIdEq.applyPairs _ _ _).trans
      ((StripIdEq.applyPairs _ _ _).trans
        ((StripIdEq.applyPairs _ _ _).trans
          (StripIdEq.applyPairs _ _ _))))

theorem dedupFold_mem (l : List VenueDataShow) :
    ∀ (acc : List String × List VenueDataShow) (x : VenueDataShow),
      x ∈ (l.foldl
        (fun acc s =>
          let k := buildShowKey s
          if acc.1.contains k then acc
          else (acc.1 ++ [k], acc.2 ++ [s])) acc).2 →
      x ∈ acc.2 ∨ x ∈ l := by
  induction l with
  | nil => intro acc x h; exact Or.inl h
  | cons a l ih =>
    intro acc x h
    rcases ih _ x h with h1 | h1
    · dsimp only at h1
      split at h1
      · exact Or.inl h1
      · rcases List.mem_append.mp h1 with h2 | h2
        · exact Or.inl h2
        · rw [List.mem_singleton] at h2
          subst h2
          exact Or.inr (List.mem_cons_self _ _)
    · exact Or.inr (List.mem_cons_of_mem a h1)

theorem dedupByShowKey_subset (l : List VenueDataShow) :
    ∀ x ∈ dedupByShowKey l, x ∈ l := by
  intro x h
  rcases dedupFold_mem l ([], []) x h with h1 | h1
  · cases h1
  · exact h1

theorem normalizeShows_showId_content (venueId venueName sourceUrl :
    String) (scraped : List ScrapedShow) (s : VenueDataShow)
    (h : s ∈ normalizeShows venueId venueName sourceUrl scraped) :
    s.showId = buildShowId s.venueId s.dateISO s.showUrl s.headliners := by
  unfold normalizeShows at h
  have h2 := (List.perm_insertionSort showLe _).mem_iff.mp h
  have h3 := dedupByShowKey_subset _ s h2
  obtain ⟨pre, _, heq⟩ := List.mem_map.mp h3
  subst heq
  rfl

theorem pushArtists_get?_ne (shows : List VenueDataShow) (i : Nat)
    (role : String) (artists : List String) (j : Nat) (h : j ≠ i) :
    (pushArtists shows i role artists).get? j = shows.get? j := by
  unfold pushArtists
  split
  · simp only [List.get?_eq_getElem?]
    exact List.getElem?_set_ne (fun he => h he.symm)
  · rfl

theorem pushArtists_get?_self (shows : List VenueDataShow) (i : Nat)
    (role : String) (artists : List String) :
    (pushArtists shows i role artists).get? i
      = (shows.get? i).map
          (fun s =>
            if role = "opener" then
              { s with openers := s.openers ++ artists }
            else { s with headliners := s.headliners ++ artists }) := by
  unfold pushArtists
  split
  · rename_i s hs
    simp only [List.get?_eq_getElem?] at hs ⊢
    rw [List.getElem?_set_self', hs]
    rfl
  · rename_i hs
    rw [hs]
    rfl

theorem hasArtist_push (s : VenueDataShow) (role : String)
    (artists : List String) (h : artists ≠ []) :
    HasArtist
      (if role = "opener" then { s with openers := s.openers ++ artists }
       else { s with headliners := s.headliners ++ artists }) := by
  split
  · exact Or.inr (by simp [h])
  · exact Or.inl (by simp [h])

theorem normStep_invariant (venueId venueName sourceUrl : String)
    (st : NormState) (item : ScrapedShow) (hart : item.artists ≠ [])
    (hinv : ∀ j s, st.shows.get? j = some s → HasArtist s) :
    ∀ j s,
      (normStep venueId venueName sourceUrl st item).shows.get? j
        = some s → HasArtist s := by
  intro j s hjs
  unfold normStep at hjs
  dsimp only at hjs
  split at hjs
  · -- an existing show absorbs the row
    rename_i i _
    by_cases hj : j = i
    · subst hj
      rw [pushArtists_get?_self] at hjs
      cases hs0 : st.shows.get? j with
      | none => rw [hs0] at hjs; cases hjs
      | some s0 =>
        rw [hs0] at hjs
        simp only [Option.map_some'] at hjs
        exact (Option.some.inj hjs) ▸ hasArtist_push s0 _ _ hart
    · rw [pushArtists_get?_ne _ _ _ _ _ hj] at hjs
      exact hinv j s hjs
  · -- a fresh show is created and immediately receives the artists
    by_cases hj : j = st.shows.length
    · subst hj
      rw [pushArtists_get?_self] at hjs
      rw [List.get?_concat_length] at hjs
      simp only [Option.map_some'] at hjs
      have hx := Option.some.inj hjs
      subst hx
      exact hasArtist_push
        { showId := "", dateISO := item.date,
          startTime := formatTime12 item.time, venueId := venueId,
          venueName := venueName,
          showUrl := if item.showUrl = "" then none else some item.showUrl,
          sourceUrl := sourceUrl, headliners := [], openers := [] }
        (item.roles.headD "headliner") item.artists hart
    · rw [pushArtists_get?_ne _ _ _ _ _ hj] at hjs
      rcases Nat.lt_or_ge j st.shows.length with hlt | hge
      · rw [List.get?_append hlt] at hjs
        exact hinv j s hjs
      · have hnone : (st.shows ++
            [{ showId := "", dateISO := item.date,
               startTime := formatTime12 item.time, venueId := venueId,
               venueName := venueName,
               showUrl :=
                 if item.showUrl = "" then none else some item.showUrl,
               sourceUrl := sourceUrl, headliners := [], openers := []
               : VenueDataShow }]).get? j = none := by
          apply List.get?_eq_none.mpr
          simp only [List.length_append, List.length_singleton]
          omega
        rw [hnone] at hjs
        cases hjs

theorem groupFold_invariant (venueId venueName sourceUrl : String) :
    ∀ (scraped : List ScrapedShow) (st : NormState),
      (∀ r ∈ scraped, r.artists ≠ []) →
      (∀ j s, st.shows.get? j = some s → HasArtist s) →
      ∀ j s,
        (scraped.foldl (normStep venueId venueName sourceUrl) st).shows.get?
          j = some s → HasArtist s := by
  intro scraped
  induction scraped with
  | nil => intro st _ hinv j s h; exact hinv j s h
  | cons item rest ih =>
    intro st hart hinv j s h
    exact ih _ (fun r hr => hart r (List.mem_cons_of_mem _ hr))
      (normStep_invariant venueId venueName sourceUrl st item
        (hart item (List.mem_cons_self _ _)) hinv) j s h

theorem dedupKeepFirst_length_mono :
    ∀ (l : List String) (acc : List String),
      acc.length ≤ (l.foldl
        (fun acc x => if acc.contains x then acc else acc ++ [x])
        acc).length := by
  intro l
  induction l with
  | nil => intro acc; exact le_rfl
  | cons x xs ih =>
    intro acc
    refine le_trans ?_ (ih _)
    dsimp only
    split
    · exact le_rfl
    · simp

theorem dedupKeepFirst_ne_nil (l : List String) (h : l ≠ []) :
    dedupKeepFirst l ≠ [] := by
  cases l with
  | nil => exact absurd rfl h
  | cons x xs =>
    unfold dedupKeepFirst
    rw [List.foldl_cons]
    intro hc
    have hlen := dedupKeepFirst_length_mono xs
      (if List.contains [] x then [] else [] ++ [x])
    rw [hc] at hlen
    simp at hlen

theorem sortStrings_ne_nil (l : List String) (h : l ≠ []) :
    sortStrings l ≠ [] := by
  unfold sortStrings
  intro hc
  have := (List.perm_insertionSort
    (fun a b : String => jsStrLe a b = true) l).length_eq
  rw [hc] at this
  simp only [List.length_nil] at this
  exact h (List.length_eq_zero.mp this.symm)

theorem normalizeShows_hasArtist (venueId venueName sourceUrl : String)
    (scraped : List ScrapedShow) (hart : ∀ r ∈ scraped, r.artists ≠ [])
    (s : VenueDataShow)
    (h : s ∈ normalizeShows venueId venueName sourceUrl scraped) :
    s.headliners ≠ [] ∨ s.openers ≠ [] := by
  unfold normalizeShows at h
  have h2 := (List.perm_insertionSort showLe _).mem_iff.mp h
  have h3 := dedupByShowKey_subset _ s h2
  obtain ⟨pre, hpre, heq⟩ := List.mem_map.mp h3
  obtain ⟨i, hi⟩ := List.mem_iff_get?.mp hpre
  have hpreArtist : HasArtist pre :=
    groupFold_invariant venueId venueName sourceUrl scraped ⟨[], []⟩
      hart (fun j s hjs => by cases hjs) i pre hi
  subst heq
  rcases hpreArtist with hh | hh
  · exact Or.inl (sortStrings_ne_nil _ (dedupKeepFirst_ne_nil _ hh))
  · exact Or.inr (sortStrings_ne_nil _ (dedupKeepFirst_ne_nil _ hh))

set_option maxRecDepth 40000 in
/-- C1: identity continuity.  Whenever the cascade's second (stable-key)
pass matches a next record to a previous record, preserveShowIds emits
that next record carrying the previous record's showId; and on the
spec's concrete batches (previous show with showId old, next batch the
same show with an added opener) the exact pass fails, the stable pass
matches, and the output showId is old although the fresh content hash
differs. -/
theorem preserveShowIds_stable_key_continuity :
    (∀ (prev next : List VenueDataShow) (pr : MatchPair),
      pr ∈ (pass2 prev next).2 →
        ((preserveShowIds next prev).get? pr.nextIndex).map
            VenueDataShow.showId
          = (prev.get? pr.prevIndex).map VenueDataShow.showId) ∧
    (pass1 [showPrevOld] [showNextNew]).2 = [] ∧
    (pass2 [showPrevOld] [showNextNew]).2 = [⟨0, 0⟩] ∧
    showNextNew.showId ≠ "old" ∧
    (preserveShowIds [showNextNew] [showPrevOld]).map
      VenueDataShow.showId = ["old"] := by
  refine ⟨preserveShowIds_stable_pair, by decide, by decide, by decide,
    by decide⟩

set_option maxRecDepth 40000 in
/-- Witness for C1: the stable-pass pair (0, 0) of the spec's concrete
batches, with the conclusion evaluated there. -/
theorem preserveShowIds_stable_key_continuity_witness :
    (⟨0, 0⟩ : MatchPair) ∈ (pass2 [showPrevOld] [showNextNew]).2 ∧
    ((preserveShowIds [showNextNew] [showPrevOld]).get? 0).map
      VenueDataShow.showId = some "old" :=
  ⟨by decide,
    (preserveShowIds_stable_key_continuity.1 [showPrevOld] [showNextNew]
      ⟨0, 0⟩ (by decide)).trans (by decide)⟩

/-- C2 (corrected): within each pass a next record matches only when its
key designates exactly one previous record that was unmatched when the
pass started, and matched next records are consumed, so no next record
is ever paired twice across the cascade.  (A previous record, however,
can be paired with several next records inside one pass, because the
lookup is not updated during the pass; see the counterexample.) -/
theorem cascade_unique_match_consumption :
    ∀ (prev next : List VenueDataShow),
      ((cascadeAllPairs prev next).map MatchPair.nextIndex).Nodup ∧
      (∀ pr ∈ (pass1 prev next).2,
        keyIndices prev [] buildShowKey
          (buildShowKey (next.getD pr.nextIndex default))
          = [pr.prevIndex]) ∧
      (∀ pr ∈ (pass2 prev next).2,
        keyIndices prev (pass1 prev next).1.matchedPrev
          buildStableShowKey
          (buildStableShowKey (next.getD pr.nextIndex default))
          = [pr.prevIndex]) ∧
      (∀ pr ∈ (pass3 prev next).2,
        keyIndices prev (pass2 prev next).1.matchedPrev buildUrlKey
          (buildUrlKey (next.getD pr.nextIndex default))
          = [pr.prevIndex]) ∧
      (∀ pr ∈ (pass4 prev next).2,
        keyIndices prev (pass3 prev next).1.matchedPrev
          buildDateTimeKey
          (buildDateTimeKey (next.getD pr.nextIndex default))
          = [pr.prevIndex]) ∧
      (∀ pr ∈ (pass5 prev next).2,
        keyIndices prev (pass4 prev next).1.matchedPrev
          buildHeadlinerTimeKey
          (buildHeadlinerTimeKey (next.getD pr.nextIndex default))
          = [pr.prevIndex]) := by
  intro prev next
  refine ⟨cascade_nextIndices_nodup prev next, ?_, ?_, ?_, ?_, ?_⟩ <;>
    intro pr hpr <;> exact (tryMatch_pairs_spec _ _ _ _ pr hpr).2.2

set_option maxRecDepth 40000 in
/-- Witness for C2: the stable-pass pair of the concrete batches, with
its uniqueness equation evaluated. -/
theorem cascade_unique_match_consumption_witness :
    (⟨0, 0⟩ : MatchPair) ∈ (pass2 [showPrevOld] [showNextNew]).2 ∧
    keyIndices [showPrevOld]
      (pass1 [showPrevOld] [showNextNew]).1.matchedPrev
      buildStableShowKey
      (buildStableShowKey ([showNextNew].getD 0 default)) = [0] :=
  ⟨by decide,
    (cascade_unique_match_consumption [showPrevOld]
      [showNextNew]).2.2.1 ⟨0, 0⟩ (by decide)⟩

set_option maxRecDepth 40000 in
/-- Counterexample to C2 as stated: with previous batch of one record
and a next batch repeating that record twice, the exact pass pairs the
single previous record with both next records (the lookup built at pass
start is never updated), so one previous record is paired with two next
records and the diff even reports two unchanged pairs against one
previous record. -/
theorem cascade_prev_reuse_counterexample :
    (pass1 [showPrevOld] [showPrevOld, showPrevOld]).2
      = [⟨0, 0⟩, ⟨0, 1⟩] ∧
    (diffShows [showPrevOld] [showPrevOld, showPrevOld]).unchanged
      = 2 := ⟨by decide, by decide⟩

set_option maxRecDepth 40000 in
/-- C3: diff counts.  unchanged counts the exact-pass pairs, updated the
pairs of passes 2-5 combined, removed the previous indices matched by no
strategy, added the next indices matched by no strategy; and on the
spec's concrete batches (S1 matched only by the stable key, S3 matched
by nothing) the result is removed 1, unchanged 0, updated 1, added 1. -/
theorem diffShows_counts_spec :
    (∀ (prev next : List VenueDataShow),
      (diffShows prev next).unchanged = (pass1 prev next).2.length ∧
      (diffShows prev next).updated
        = ((pass2 prev next).2 ++ (pass3 prev next).2
            ++ (pass4 prev next).2 ++ (pass5 prev next).2).length ∧
      (diffShows prev next).removed
        = ((List.range prev.length).filter
            (fun i =>
              !(((cascadeAllPairs prev next).map
                  MatchPair.prevIndex).contains i))).length ∧
      (diffShows prev next).added
        = ((List.range next.length).filter
            (fun i =>
              !(((cascadeAllPairs prev next).map
                  MatchPair.nextIndex).contains i))).length) ∧
    (pass1 [diffS1, diffS2] [diffS1n, diffS3]).2 = [] ∧
    (pass2 [diffS1, diffS2] [diffS1n, diffS3]).2 = [⟨0, 0⟩] ∧
    (pass3 [diffS1, diffS2] [diffS1n, diffS3]).2 = [] ∧
    (pass4 [diffS1, diffS2] [diffS1n, diffS3]).2 = [] ∧
    (pass5 [diffS1, diffS2] [diffS1n, diffS3]).2 = [] ∧
    diffShows [diffS1, diffS2] [diffS1n, diffS3]
      = { removed := 1, unchanged := 0, updated := 1, added := 1 } := by
  refine ⟨fun prev next => ⟨rfl, rfl, diffShows_removed_count prev next,
    diffShows_added_count prev next⟩,
    by decide, by decide, by decide, by decide, by decide, by decide⟩

set_option maxRecDepth 400000 in
/-- C4: write-gate.  The per-venue step persists exactly when no prior
file exists or the diff of the today-or-later slices reports updated,
added or removed positive; the resulting on-disk state is the payload
when it writes and the untouched previous file otherwise; and in the
concrete scenario whose only change is a dropped past-dated show, the
write is suppressed, the file is untouched, and yet the full-batch diff
reports a removal. -/
theorem runUpdate_write_gate :
    (∀ (venue : VenueInfo) (gen today : String)
        (prev : Option VenueDataFile) (nextShows : List VenueDataShow),
      ((venueUpdateStep venue gen today prev nextShows).1 = true ↔
        (prev = none ∨
          0 < (diffShows
            (((prev.map VenueDataFile.shows).getD []).filter
              (fun s => jsStrLe today s.dateISO))
            ((preserveShowIds nextShows
              ((prev.map VenueDataFile.shows).getD [])).filter
              (fun s => jsStrLe today s.dateISO))).updated ∨
          0 < (diffShows
            (((prev.map VenueDataFile.shows).getD []).filter
              (fun s => jsStrLe today s.dateISO))
            ((preserveShowIds nextShows
              ((prev.map VenueDataFile.shows).getD [])).filter
              (fun s => jsStrLe today s.dateISO))).added ∨
          0 < (diffShows
            (((prev.map VenueDataFile.shows).getD []).filter
              (fun s => jsStrLe today s.dateISO))
            ((preserveShowIds nextShows
              ((prev.map VenueDataFile.shows).getD [])).filter
              (fun s => jsStrLe today s.dateISO))).removed)) ∧
      (venueUpdateStep venue gen today prev nextShows).2
        = (if (venueUpdateStep venue gen today prev nextShows).1 then
            some ⟨venue, gen, preserveShowIds nextShows
              ((prev.map VenueDataFile.shows).getD [])⟩
          else prev)) ∧
    ((venueUpdateStep venueOne "GEN" "2026-01-10" (some prevFileV1)
        [futureShowA2]).1 = false ∧
      (venueUpdateStep venueOne "GEN" "2026-01-10" (some prevFileV1)
        [futureShowA2]).2 = some prevFileV1 ∧
      0 < (diffShows prevFileV1.shows
        (preserveShowIds [futureShowA2] prevFileV1.shows)).removed) := by
  constructor
  · intro venue gen today prev nextShows
    constructor
    · show (_ || _ || _ || _) = true ↔ _
      simp [Bool.or_eq_true, decide_eq_true_iff,
        Option.isNone_iff_eq_none, or_assoc]
    · rfl
  · refine ⟨by decide, by decide, by decide⟩

/-- C5 (corrected): every record the Normalizer outputs carries a showId
that is the content hash of its own fields, so identical content always
receives the identical identifier regardless of scrape order; full
invariance of the batch under permutation of the rows fails (see the
counterexample). -/
theorem normalizeShows_showId_content_hash :
    ∀ (venueId venueName sourceUrl : String)
      (scraped : List ScrapedShow) (s : VenueDataShow),
      s ∈ normalizeShows venueId venueName sourceUrl scraped →
        s.showId
          = buildShowId s.venueId s.dateISO s.showUrl s.headliners :=
  fun venueId venueName sourceUrl scraped s h =>
    normalizeShows_showId_content venueId venueName sourceUrl scraped
      s h

set_option maxRecDepth 400000 in
/-- Witness for C5: the first record produced from one headliner row,
with its content-hash equation evaluated. -/
theorem normalizeShows_showId_content_hash_witness :
    ((normalizeShows "v1" "Venue One" "https://venue.example/cal"
        [rowHeadB]).getD 0 default)
      ∈ normalizeShows "v1" "Venue One" "https://venue.example/cal"
        [rowHeadB] ∧
    ((normalizeShows "v1" "Venue One" "https://venue.example/cal"
        [rowHeadB]).getD 0 default).showId
      = buildShowId
          ((normalizeShows "v1" "Venue One" "https://venue.example/cal"
            [rowHeadB]).getD 0 default).venueId
          ((normalizeShows "v1" "Venue One" "https://venue.example/cal"
            [rowHeadB]).getD 0 default).dateISO
          ((normalizeShows "v1" "Venue One" "https://venue.example/cal"
            [rowHeadB]).getD 0 default).showUrl
          ((normalizeShows "v1" "Venue One" "https://venue.example/cal"
            [rowHeadB]).getD 0 default).headliners :=
  ⟨by decide,
    normalizeShows_showId_content_hash "v1" "Venue One"
      "https://venue.example/cal" [rowHeadB] _ (by decide)⟩

set_option maxRecDepth 400000 in
/-- Counterexample to C5 as stated: reordering the same two rows (a
headliner row and an orphan opener row without url) changes the length
of the normalized batch, because the opener row attaches to a prior
same-date show in one order and starts its own record in the other. -/
theorem normalizeShows_permutation_counterexample :
    [rowOpenA, rowHeadB].Perm [rowHeadB, rowOpenA] ∧
    (normalizeShows "v1" "Venue One" "https://venue.example/cal"
      [rowHeadB, rowOpenA]).length = 1 ∧
    (normalizeShows "v1" "Venue One" "https://venue.example/cal"
      [rowOpenA, rowHeadB]).length = 2 :=
  ⟨List.Perm.swap rowHeadB rowOpenA [], by decide, by decide⟩

/-- C6 (corrected): provided every scraped row names at least one
artist, every record the Normalizer outputs carries at least one artist:
its headliners or its openers are non-empty.  Headliners alone can be
empty (an orphan opener row creates a headliner-less record; see the
counterexample). -/
theorem normalizeShows_artists_nonempty :
    ∀ (venueId venueName sourceUrl : String)
      (scraped : List ScrapedShow),
      (∀ r ∈ scraped, r.artists ≠ []) →
      ∀ s ∈ normalizeShows venueId venueName sourceUrl scraped,
        s.headliners ≠ [] ∨ s.openers ≠ [] :=
  fun venueId venueName sourceUrl scraped hart s h =>
    normalizeShows_hasArtist venueId venueName sourceUrl scraped hart
      s h

set_option maxRecDepth 400000 in
/-- Witness for C6: one headliner row, whose single output record has
non-empty headliners. -/
theorem normalizeShows_artists_nonempty_witness :
    (∀ r ∈ [rowHeadB], r.artists ≠ []) ∧
    ((normalizeShows "v1" "Venue One" "https://venue.example/cal"
        [rowHeadB]).getD 0 default)
      ∈ normalizeShows "v1" "Venue One" "https://venue.example/cal"
        [rowHeadB] ∧
    (((normalizeShows "v1" "Venue One" "https://venue.example/cal"
        [rowHeadB]).getD 0 default).headliners ≠ [] ∨
      ((normalizeShows "v1" "Venue One" "https://venue.example/cal"
        [rowHeadB]).getD 0 default).openers ≠ []) :=
  ⟨by decide, by decide,
    normalizeShows_artists_nonempty "v1" "Venue One"
      "https://venue.example/cal" [rowHeadB] (by decide) _ (by decide)⟩

set_option maxRecDepth 400000 in
/-- Counterexample to C6 as stated: a single orphan opener row (non-empty
artists, no url, no preceding show) yields one output record whose
headliners are empty. -/
theorem normalizeShows_headliners_empty_counterexample :
    rowOpenA.artists ≠ [] ∧
    (normalizeShows "v1" "Venue One" "https://venue.example/cal"
      [rowOpenA]).map VenueDataShow.headliners = [[]] :=
  ⟨by decide, by decide⟩

/-- C7 (corrected): the persisted state after a venue step is the
untouched previous file when the write-gate suppresses the write, and
exactly the reconciled next batch when it writes — so previous shows,
past-dated ones included, survive only while no write happens; a write
drops every unmatched previous show regardless of its date (see the
counterexample). -/
theorem runUpdate_persisted_batch :
    ∀ (venue : VenueInfo) (gen today : String)
      (prev : Option VenueDataFile) (nextShows : List VenueDataShow),
      ((venueUpdateStep venue gen today prev nextShows).1 = false →
        (venueUpdateStep venue gen today prev nextShows).2 = prev) ∧
      ((venueUpdateStep venue gen today prev nextShows).1 = true →
        (venueUpdateStep venue gen today prev nextShows).2
          = some ⟨venue, gen, preserveShowIds nextShows
              ((prev.map VenueDataFile.shows).getD [])⟩) := by
  intro venue gen today prev nextShows
  have hif : (venueUpdateStep venue gen today prev nextShows).2
      = (if (venueUpdateStep venue gen today prev nextShows).1 then
          some ⟨venue, gen, preserveShowIds nextShows
            ((prev.map VenueDataFile.shows).getD [])⟩
        else prev) := rfl
  constructor
  · intro h
    rw [hif, h]
    rfl
  · intro h
    rw [hif, h]
    rfl

set_option maxRecDepth 400000 in
/-- Witness for C7: the concrete write scenario, with the persisted
state evaluated. -/
theorem runUpdate_persisted_batch_witness :
    (venueUpdateStep venueOne "GEN" "2026-01-10" (some prevFileV1)
      [futureShowB]).1 = true ∧
    (venueUpdateStep venueOne "GEN" "2026-01-10" (some prevFileV1)
      [futureShowB]).2
      = some ⟨venueOne, "GEN", preserveShowIds [futureShowB]
          (((some prevFileV1).map VenueDataFile.shows).getD [])⟩ :=
  ⟨by decide,
    (runUpdate_persisted_batch venueOne "GEN" "2026-01-10"
      (some prevFileV1) [futureShowB]).2 (by decide)⟩

set_option maxRecDepth 400000 in
/-- Counterexample to C7 as stated: a past-dated previous show that is
no longer scraped is dropped from the persisted batch as soon as a
forward-looking change (here an added future show) triggers a write. -/
theorem runUpdate_past_show_dropped_counterexample :
    pastShowP ∈ prevFileV1.shows ∧
    jsStrLt pastShowP.dateISO "2026-01-10" = true ∧
    (venueUpdateStep venueOne "GEN" "2026-01-10" (some prevFileV1)
      [futureShowB]).1 = true ∧
    (venueUpdateStep venueOne "GEN" "2026-01-10" (some prevFileV1)
      [futureShowB]).2 = some ⟨venueOne, "GEN", [futureShowB]⟩ ∧
    pastShowP ∉ [futureShowB] :=
  ⟨by decide, by decide, by decide, by decide, by decide⟩

set_option maxRecDepth 400000 in
/-- C8 (corrected): on the spec's reference date 2026-01-05, the
dot-notation date 12.31 parses to 2026-12-31 — the reference year is
kept, not rolled back to 2025 — and 3.15 parses to 2026-03-15; indeed
inferYear can only ever keep the reference year or advance it by one. -/
theorem parseDate_reference_cases :
    parseDateISOFromText "12.31" refJan5 = "2026-12-31" ∧
    parseDateISOFromText "3.15" refJan5 = "2026-03-15" ∧
    ∀ (m d : Nat) (ref : JSDate),
      inferYear m d ref = ref.utcFullYear ∨
        inferYear m d ref = ref.utcFullYear + 1 := by
  refine ⟨by decide, by decide, ?_⟩
  intro m d ref
  unfold inferYear
  dsimp only
  split
  · exact Or.inr rfl
  · exact Or.inl rfl

set_option maxRecDepth 400000 in
/-- Counterexample to C8 as stated: parseDateISOFromText at 12.31 with
reference 2026-01-05 does not return the claimed 2025-12-31; it returns
2026-12-31. -/
theorem parseDate_year_rollback_counterexample :
    parseDateISOFromText "12.31" refJan5 ≠ "2025-12-31" ∧
    parseDateISOFromText "12.31" refJan5 = "2026-12-31" :=
  ⟨by decide, by decide⟩

theorem charListLt_irrefl : ∀ l : List Char, charListLt l l = false := by
  intro l
  induction l with
  | nil => rfl
  | cons c cs ih =>
    rw [charListLt]
    rw [if_neg (by omega), if_neg (by omega)]
    exact ih

theorem jsStrLt_irrefl (a : String) : jsStrLt a a = false :=
  charListLt_irrefl a.data

theorem jsStrLe_iff_lt_of_ne {a b : String} (h : a ≠ b) :
    (jsStrLe a b = true ↔ jsStrLt a b = true) := by
  constructor
  · intro hle
    unfold jsStrLe at hle
    rw [Bool.not_eq_true'] at hle
    cases hab : jsStrLt a b with
    | true => rfl
    | false => exact absurd (jsStrLt_connex hab hle) h
  · intro hlt
    unfold jsStrLe
    rw [jsStrLt_asymm hlt]
    rfl

theorem showLeC_total (C : Collation) :
    ∀ a b, showLeC C a b ∨ showLeC C b a := by
  intro a b
  unfold showLeC
  by_cases hd : a.dateISO = b.dateISO
  · rw [if_pos hd, if_pos hd.symm]
    by_cases hst : startTimeKey a = startTimeKey b
    · rw [if_pos hst, if_pos hst.symm]
      exact C.total _ _
    · rw [if_neg hst, if_neg (fun he => hst he.symm)]
      exact C.total _ _
  · rw [if_neg hd, if_neg (fun he => hd he.symm)]
    exact C.total _ _

theorem showLeC_trans (C : Collation) :
    ∀ a b c, showLeC C a b → showLeC C b c → showLeC C a c := by
  intro a b c hab hbc
  unfold showLeC at hab hbc ⊢
  by_cases dab : a.dateISO = b.dateISO
  · by_cases dbc : b.dateISO = c.dateISO
    · rw [if_pos dab] at hab
      rw [if_pos dbc] at hbc
      rw [if_pos (dab.trans dbc)]
      by_cases sab : startTimeKey a = startTimeKey b
      · by_cases sbc : startTimeKey b = startTimeKey c
        · rw [if_pos sab] at hab
          rw [if_pos sbc] at hbc
          rw [if_pos (sab.trans sbc)]
          exact C.trans _ _ _ hab hbc
        · rw [if_pos sab] at hab
          rw [if_neg sbc] at hbc
          rw [if_neg (fun he => sbc (sab ▸ he)), sab]
          exact hbc
      · by_cases sbc : startTimeKey b = startTimeKey c
        · rw [if_neg sab] at hab
          rw [if_pos sbc] at hbc
          rw [if_neg (fun he => sab (he.trans sbc.symm)), ← sbc]
          exact hab
        · rw [if_neg sab] at hab
          rw [if_neg sbc] at hbc
          by_cases sac : startTimeKey a = startTimeKey c
          · exfalso
            have h1 : C.le (startTimeKey b) (startTimeKey a) = true := by
              rw [sac]
              exact hbc
            exact sab (C.antisymm _ _ hab h1)
          · rw [if_neg sac]
            exact C.trans _ _ _ hab hbc
    · rw [if_pos dab] at hab
      rw [if_neg dbc] at hbc
      rw [if_neg (fun he => dbc (dab ▸ he)), dab]
      exact hbc
  · by_cases dbc : b.dateISO = c.dateISO
    · rw [if_neg dab] at hab
      rw [if_pos dbc] at hbc
      rw [if_neg (fun he => dab (he.trans dbc.symm)), ← dbc]
      exact hab
    · rw [if_neg dab] at hab
      rw [if_neg dbc] at hbc
      by_cases dac : a.dateISO = c.dateISO
      · exfalso
        have h1 : C.le b.dateISO a.dateISO = true := by
          rw [dac]
          exact hbc
        exact dab (C.antisymm _ _ hab h1)
      · rw [if_neg dac]
        exact C.trans _ _ _ hab hbc

theorem normalizeShowsWith_sorted (C : Collation)
    (venueId venueName sourceUrl : String)
    (scraped : List ScrapedShow) :
    (normalizeShowsWith C venueId venueName sourceUrl scraped).Pairwise
      (showLeC C) := by
  unfold normalizeShowsWith
  exact @List.sorted_insertionSort _ (showLeC C) _ ⟨showLeC_total C⟩
    ⟨showLeC_trans C⟩ _

theorem formatTime12_ne_some_empty (t : String) :
    formatTime12 t ≠ some "" := by
  unfold formatTime12
  split
  · simp
  · dsimp only
    split
    · simp
    · intro h
      have h2 := Option.some.inj h
      have h3 := congrArg String.length h2
      simp only [String.length_append] at h3
      have h4 : (":" : String).length = 1 := by decide
      have h5 : ("" : String).length = 0 := by decide
      rw [h4, h5] at h3
      omega

theorem normStep_startTime (venueId venueName sourceUrl : String)
    (st : NormState) (item : ScrapedShow)
    (hinv : ∀ j s, st.shows.get? j = some s → s.startTime ≠ some "") :
    ∀ j s,
      (normStep venueId venueName sourceUrl st item).shows.get? j
        = some s → s.startTime ≠ some "" := by
  intro j s hjs
  unfold normStep at hjs
  dsimp only at hjs
  split at hjs
  · rename_i i _
    by_cases hj : j = i
    · subst hj
      rw [pushArtists_get?_self] at hjs
      cases hs0 : st.shows.get? j with
      | none => rw [hs0] at hjs; cases hjs
      | some s0 =>
        rw [hs0] at hjs
        simp only [Option.map_some'] at hjs
        have hx := Option.some.inj hjs
        subst hx
        have h0 := hinv j s0 hs0
        split <;> exact h0
    · rw [pushArtists_get?_ne _ _ _ _ _ hj] at hjs
      exact hinv j s hjs
  · by_cases hj : j = st.shows.length
    · subst hj
      rw [pushArtists_get?_self] at hjs
      rw [List.get?_concat_length] at hjs
      simp only [Option.map_some'] at hjs
      have hx := Option.some.inj hjs
      subst hx
      split <;> exact formatTime12_ne_some_empty item.time
    · rw [pushArtists_get?_ne _ _ _ _ _ hj] at hjs
      rcases Nat.lt_or_ge j st.shows.length with hlt | hge
      · rw [List.get?_append hlt] at hjs
        exact hinv j s hjs
      · have hnone : (st.shows ++
            [{ showId := "", dateISO := item.date,
               startTime := formatTime12 item.time, venueId := venueId,
               venueName := venueName,
               showUrl :=
                 if item.showUrl = "" then none else some item.showUrl,
               sourceUrl := sourceUrl, headliners := [], openers := []
               : VenueDataShow }]).get? j = none := by
          apply List.get?_eq_none.mpr
          simp only [List.length_append, List.length_singleton]
          omega
        rw [hnone] at hjs
        cases hjs

theorem groupFold_startTime (venueId venueName sourceUrl : String) :
    ∀ (scraped : List ScrapedShow) (st : NormState),
      (∀ j s, st.shows.get? j = some s → s.startTime ≠ some "") →
      ∀ j s,
        (scraped.foldl (normStep venueId venueName sourceUrl) st).shows.get?
          j = some s → s.startTime ≠ some "" := by
  intro scraped
  induction scraped with
  | nil => intro st hinv j s h; exact hinv j s h
  | cons item rest ih =>
    intro st hinv j s h
    exact ih _
      (normStep_startTime venueId venueName sourceUrl st item hinv)
      j s h

theorem normalizeShowsWith_startTime_ok (C : Collation)
    (venueId venueName sourceUrl : String)
    (scraped : List ScrapedShow) :
    ∀ s ∈ normalizeShowsWith C venueId venueName sourceUrl scraped,
      s.startTime ≠ some "" := by
  intro s h
  unfold normalizeShowsWith at h
  have h2 := (List.perm_insertionSort (showLeC C) _).mem_iff.mp h
  have h3 := dedupByShowKey_subset _ s h2
  obtain ⟨pre, hpre, heq⟩ := List.mem_map.mp h3
  obtain ⟨i, hi⟩ := List.mem_iff_get?.mp hpre
  have hok := groupFold_startTime venueId venueName sourceUrl scraped
    ⟨[], []⟩ (fun j s hjs => by cases hjs) i pre hi
  subst heq
  exact hok

theorem normalizeShowsWith_nulls_first (C : Collation)
    (venueId venueName sourceUrl : String)
    (scraped : List ScrapedShow) :
    (normalizeShowsWith C venueId venueName sourceUrl scraped).Pairwise
      (fun a b => a.dateISO = b.dateISO → b.startTime = none →
        a.startTime = none) := by
  have hs := normalizeShowsWith_sorted C venueId venueName sourceUrl
    scraped
  have hok := normalizeShowsWith_startTime_ok C venueId venueName
    sourceUrl scraped
  refine hs.imp_of_mem ?_
  intro a b ha hb hle hdate hbnone
  unfold showLeC at hle
  rw [if_pos hdate] at hle
  have hstb : startTimeKey b = "" := by
    unfold startTimeKey
    rw [hbnone]
    rfl
  by_cases hst : startTimeKey a = startTimeKey b
  · have ha0 : startTimeKey a = "" := hst.trans hstb
    unfold startTimeKey at ha0
    cases hA : a.startTime with
    | none => rfl
    | some t =>
      rw [hA] at ha0
      simp only [Option.getD_some] at ha0
      exact absurd (hA.trans (by rw [ha0])) (hok a ha)
  · rw [if_neg hst, hstb] at hle
    have he := C.antisymm _ _ hle (C.empty_le _)
    exact absurd (he.trans hstb.symm) hst

theorem orderedInsert_congr {α : Type _} (r s : α → α → Prop)
    [DecidableRel r] [DecidableRel s] (h : ∀ a b, r a b ↔ s a b)
    (a : α) : ∀ l, List.orderedInsert r a l = List.orderedInsert s a l := by
  intro l
  induction l with
  | nil => rfl
  | cons b l ih =>
    show (if r a b then _ else _) = (if s a b then _ else _)
    by_cases hr : r a b
    · rw [if_pos hr, if_pos ((h a b).mp hr)]
    · rw [if_neg hr, if_neg (fun hs2 => hr ((h a b).mpr hs2)), ih]

theorem insertionSort_congr {α : Type _} (r s : α → α → Prop)
    [DecidableRel r] [DecidableRel s] (h : ∀ a b, r a b ↔ s a b) :
    ∀ l, List.insertionSort r l = List.insertionSort s l := by
  intro l
  induction l with
  | nil => rfl
  | cons a l ih =>
    show List.orderedInsert r a (List.insertionSort r l) = _
    rw [ih, orderedInsert_congr r s h]
    rfl

theorem showLe_iff_showLeC (a b : VenueDataShow) :
    showLe a b ↔ showLeC codeUnitCollation a b := by
  unfold showLe showLeC
  by_cases hd : a.dateISO = b.dateISO
  · rw [if_pos hd]
    constructor
    · rintro (h1 | ⟨e1, h2⟩)
      · rw [hd, jsStrLt_irrefl] at h1
        cases h1
      · by_cases hst : startTimeKey a = startTimeKey b
        · rw [if_pos hst]
          rcases h2 with h2 | ⟨f, h3⟩
          · rw [hst, jsStrLt_irrefl] at h2
            cases h2
          · exact h3
        · rw [if_neg hst]
          rcases h2 with h2 | ⟨f, h3⟩
          · exact (jsStrLe_iff_lt_of_ne hst).mpr h2
          · exact absurd f hst
    · intro h
      by_cases hst : startTimeKey a = startTimeKey b
      · rw [if_pos hst] at h
        exact Or.inr ⟨hd, Or.inr ⟨hst, h⟩⟩
      · rw [if_neg hst] at h
        exact Or.inr ⟨hd, Or.inl ((jsStrLe_iff_lt_of_ne hst).mp h)⟩
  · rw [if_neg hd]
    constructor
    · rintro (h1 | ⟨e1, _⟩)
      · exact (jsStrLe_iff_lt_of_ne hd).mpr h1
      · exact absurd e1 hd
    · intro h
      exact Or.inl ((jsStrLe_iff_lt_of_ne hd).mp h)

theorem normalizeShows_eq_collation (venueId venueName sourceUrl :
    String) (scraped : List ScrapedShow) :
    normalizeShows venueId venueName sourceUrl scraped
      = normalizeShowsWith codeUnitCollation venueId venueName sourceUrl
          scraped := by
  unfold normalizeShows normalizeShowsWith
  exact insertionSort_congr showLe (showLeC codeUnitCollation)
    showLe_iff_showLeC _

/-- C9 (corrected): for every collation satisfying the comparator
contract localeCompare is relied on for (total, transitive, separating
distinct strings, empty string first), the Normalizer output is sorted
by the source comparator — dateISO first when the dates differ as
strings, then startTime with null rendered as the empty string, then
the joined headliners — and within one date every record with a null
startTime is ordered BEFORE all records with a known startTime, not
after, because the null sort key is the collation-minimal empty string;
the concrete normalizeShows is exactly this definition at the code-unit
collation instance. -/
theorem normalizeShows_sort_order :
    (∀ (C : Collation) (venueId venueName sourceUrl : String)
        (scraped : List ScrapedShow),
      (normalizeShowsWith C venueId venueName sourceUrl scraped).Pairwise
        (showLeC C) ∧
      (normalizeShowsWith C venueId venueName sourceUrl
        scraped).Pairwise
        (fun a b => a.dateISO = b.dateISO → b.startTime = none →
          a.startTime = none)) ∧
    (∀ (venueId venueName sourceUrl : String)
        (scraped : List ScrapedShow),
      normalizeShows venueId venueName sourceUrl scraped
        = normalizeShowsWith codeUnitCollation venueId venueName
            sourceUrl scraped) :=
  ⟨fun C venueId venueName sourceUrl scraped =>
    ⟨normalizeShowsWith_sorted C venueId venueName sourceUrl scraped,
     normalizeShowsWith_nulls_first C venueId venueName sourceUrl
       scraped⟩,
   normalizeShows_eq_collation⟩

set_option maxRecDepth 400000 in
/-- Counterexample to C9 as stated: two same-date shows, one with a
known startTime and one without; the null-startTime record is emitted
first, violating null-sorted-last. -/
theorem normalizeShows_null_time_first_counterexample :
    ¬ nullsLastOnDate (normalizeShows "v1" "Venue One"
      "https://venue.example/cal" [rowTimed, rowNoTime]) ∧
    (normalizeShows "v1" "Venue One" "https://venue.example/cal"
      [rowTimed, rowNoTime]).map VenueDataShow.startTime
      = [none, some "7:00 PM"] :=
  ⟨by decide, by decide⟩

/-- C10: frame property of preserveShowIds.  The output has exactly the
length and order of the next batch and agrees with it pointwise on every
field except showId (the embedding is pure, so the inputs themselves are
never modified; the source likewise spread-copies each next record
before writing ids). -/
theorem preserveShowIds_frame :
    ∀ (nextShows previousShows : List VenueDataShow),
      (preserveShowIds nextShows previousShows).length
        = nextShows.length ∧
      ∀ j, ((preserveShowIds nextShows previousShows).get? j).map
          stripId
        = (nextShows.get? j).map stripId :=
  fun nextShows previousShows =>
    ⟨preserveShowIds_length nextShows previousShows,
     preserveShowIds_stripIdEq nextShows previousShows⟩
